import Mathlib

/-!
# VisionSystemRemote: the Arena coordinate transform, marker registry and randomizer

A shallow embedding of `src/Arena.cpp` / `src/Arena.h`.

Number model.
* `float` values of the coordinate transform (`cameraCoordinate`, `translate`,
  `processMarkers`) are real numbers; `cos`, `sin`, `sqrt` are the real functions,
  `atan2` is the argument of the complex number `x + y i` (range `(-π, π]`, value `0`
  at the origin, as in C), and the constant `PI` used by `translate` is `π`.
* `float` values of `randomize` are rational numbers (every decimal literal of the
  source is one), so `randomize` is executable.
* `int` members (`mOriginPx`, `mXAxisPx`, marker ids) are integers; pixel
  coordinates are image coordinates, far inside the range of `int`. A detected corner is
  converted to `int` by truncation toward zero (`toInt`); the pixel `cameraCoordinate`
  computes is kept as the real point before its conversion (`cameraCoordinateF`).
* `rand()` is a stream `rand : ℕ → ℕ`: `rand k` is the value returned by the
  `k`-th call (counting from `0`) made by `randomize`; `rand()` is never negative.
* Mutexes and drawing calls have no effect on the values computed and are omitted.
-/

set_option linter.dupNamespace false

namespace Arena

/-! ## Data model -/

/-- `Position(x, y, theta)`: metres, metres, radians. -/
structure Position (K : Type) where
  x : K
  y : K
  theta : K

/-- `Marker(id, x, y, theta)` as built by `translate`. -/
structure Marker where
  id : ℤ
  x : ℝ
  y : ℝ
  theta : ℝ

/-- `Obstacle{x, y, width, height}`: `(x, y)` is the upper left corner. -/
structure Obstacle where
  x : ℚ
  y : ℚ
  width : ℚ
  height : ℚ
deriving DecidableEq

/-- A pixel corner `cv::Point2f`. -/
structure Point2f where
  x : ℝ
  y : ℝ

/-- An `aruco::Marker` detection: its id and its first two corners `m[0]`, `m[1]`
(the only ones `Arena` reads). -/
structure Detection where
  id : ℤ
  c0 : Point2f
  c1 : Point2f

/-- The data members of `class Arena` that the modelled member functions read or write. -/
structure State where
  mOriginPx : ℤ × ℤ
  mXAxisPx : ℤ × ℤ
  mWidthM : ℝ
  mHeightM : ℝ
  mPpm : ℝ
  mTheta : ℝ
  mStartingLocation : Position ℚ
  mObstacles0 : Obstacle
  mObstacles1 : Obstacle
  mObstacles2 : Obstacle
  mTargetLocation : Position ℚ
  mMarkers : ℤ → Option Marker

/-! ## Library functions -/

/-- C `atan2(y, x)`: the angle of the point `(x, y)`, in `(-π, π]`, `0` at the origin. -/
noncomputable def atan2 (y x : ℝ) : ℝ := Complex.arg ⟨x, y⟩

/-- Conversion of a `float` to `int`: truncation toward zero. -/
noncomputable def toInt (x : ℝ) : ℤ := if 0 ≤ x then ⌊x⌋ else ⌈x⌉

/-- `QMap::clear`. -/
def qmapClear : ℤ → Option Marker := fun _ => none

/-- `QMap::insert(key, value)`: a value already stored under `key` is replaced. -/
def qmapInsert (m : ℤ → Option Marker) (key : ℤ) (value : Marker) : ℤ → Option Marker :=
  fun k => if k = key then some value else m k

/-- `QMap::contains(key)`. -/
def qmapContains (m : ℤ → Option Marker) (key : ℤ) : Bool := (m key).isSome

/-! ## `Arena::Arena` -/

/-- The constructor. It assigns the origin and axis pixels, the three obstacles and
the arena size; `u` carries the values of the members it leaves alone (`mPpm`,
`mTheta`, the positions), and `mMarkers` is a default-constructed, empty `QMap`. -/
def Arena (u : State) : State :=
  { u with
    mOriginPx := (500, 500)
    mXAxisPx := (600, 600)
    mObstacles0 := ⟨2.0, 2.0, 1.0, 1.0⟩
    mObstacles1 := ⟨3.0, 1.5, 0.8, 0.2⟩
    mObstacles2 := ⟨1.5, 3.2, 1.2, 1.4⟩
    mWidthM := 4
    mHeightM := 2
    mMarkers := qmapClear }

/-! ## `Arena::cameraCoordinate` -/

/-- `Arena::cameraCoordinate` in exact real arithmetic: the two `float` arguments
`mOriginPx[0] + fx` and `mOriginPx[1] - fy` of its `cv::Point` constructor call. The
conversion of these arguments to `int` is not embedded: it truncates, so it turns a
rounding error of the `float` computation into a whole pixel, which a model over the real
numbers cannot follow. -/
noncomputable def cameraCoordinateF (s : State) (x y : ℝ) : ℝ × ℝ :=
  let A := x * s.mPpm
  let B := y * s.mPpm
  let fx := A * Real.cos s.mTheta - B * Real.sin s.mTheta
  let fy := A * Real.sin s.mTheta + B * Real.cos s.mTheta
  (s.mOriginPx.1 + fx, s.mOriginPx.2 - fy)

/-! ## `Arena::translate` -/

/-- `Arena::translate`: an ArUco detection to a `Marker` in arena coordinates. -/
noncomputable def translate (s : State) (m : Detection) : Marker :=
  let theta := s.mTheta - atan2 (m.c1.y - m.c0.y) (m.c1.x - m.c0.x)
  let fx := m.c0.x - s.mOriginPx.1
  let fy := s.mOriginPx.2 - m.c0.y
  let A := fx * Real.cos s.mTheta + fy * Real.sin s.mTheta
  let B := fy * Real.cos s.mTheta - fx * Real.sin s.mTheta
  let markerSide := Real.sqrt ((m.c1.x - m.c0.x) * (m.c1.x - m.c0.x)
    + (m.c1.y - m.c0.y) * (m.c1.y - m.c0.y))
  let A2 := if Real.cos theta ≥ 0
    then A + Real.sqrt 2 * markerSide / 2 * Real.cos (Real.pi / 4 - theta)
    else A - Real.sqrt 2 * markerSide / 2 * Real.sin (theta - 3 * Real.pi / 4)
  let B2 := if Real.cos theta ≥ 0
    then B - Real.sqrt 2 * markerSide / 2 * Real.sin (Real.pi / 4 - theta)
    else B + Real.sqrt 2 * markerSide / 2 * Real.cos (theta - 3 * Real.pi / 4)
  ⟨m.id, A2 / s.mPpm, B2 / s.mPpm, theta⟩

/-! ## `Arena::getPosition` and `Arena::processMarkers` -/

/-- `Arena::getPosition(markerId, marker)`: the returned flag and the value of the
reference parameter `marker` after the call. In the `contains` branch
`mMarkers.value(markerId, ...)` is the stored marker (its default argument is not used). -/
def getPosition (s : State) (markerId : ℤ) (marker : Marker) : Bool × Marker :=
  if qmapContains s.mMarkers markerId
  then (true, (s.mMarkers markerId).getD marker)
  else (false, marker)

/-- The body of the `foreach` loop of `processMarkers` for one detection. -/
noncomputable def processMarker (s : State) (marker : Detection) : State :=
  if marker.id = 0 then
    { s with mOriginPx := (toInt marker.c0.x, toInt marker.c0.y) }
  else if marker.id = 1 then
    { s with mXAxisPx := (toInt marker.c0.x, toInt marker.c0.y) }
  else
    { s with mMarkers := qmapInsert s.mMarkers marker.id (translate s marker) }

/-- `Arena::processMarkers`: clear the registry, run the loop over the detections in
order, then recompute `mPpm` and `mTheta`. -/
noncomputable def processMarkers (s : State) (markers : List Detection) : State :=
  let s1 := markers.foldl processMarker { s with mMarkers := qmapClear }
  let dx : ℤ := s1.mXAxisPx.1 - s1.mOriginPx.1
  let dy : ℤ := s1.mXAxisPx.2 - s1.mOriginPx.2
  { s1 with
    mPpm := Real.sqrt ((dx * dx + dy * dy : ℤ)) / s1.mWidthM
    mTheta := -atan2 (dy : ℤ) (dx : ℤ) }

/-! ## `Arena::randomize` -/

/-- `const float PI = 3.141592653589`. -/
def PI : ℚ := 3.141592653589

/-- `const float TARGET_DIAMETER = 0.18`. -/
def TARGET_DIAMETER : ℚ := 0.18

/-- `Arena::max`. -/
def max (a b : ℚ) : ℚ := if a > b then a else b

/-- `Arena::min`. -/
def min (a b : ℚ) : ℚ := if a < b then a else b

/-- The table `quadrantBounds[4][4]` of `randomize`; each row is
min x, max x, min y, max y. -/
def quadrantBoundsTable : List (List ℚ) :=
  [[1.4, 2.25, 1.0, 1.8],
   [1.4, 2.25, 0.2, 1.0],
   [2.25, 3.8, 0.2, 1.0],
   [2.25, 3.8, 1.0, 1.8]]

/-- The entry `quadrantBounds[i][j]`. -/
def quadrantBounds (i j : ℕ) : ℚ := ((quadrantBoundsTable.getD i []).getD j 0)

/-- The body of the first `for` loop of `randomize` for obstacle `i`: `r` is the value
of the loop's `rand()` call; sizes and orientation are reassigned. -/
def resize (largeObstacleQuadrant i r : ℕ) (o : Obstacle) : Obstacle :=
  let d1 : ℚ := if i = largeObstacleQuadrant then 0.41 else 0.32
  let d2 : ℚ := if i = largeObstacleQuadrant then 0.23 else 0.13
  if r % 2 ≠ 0 then { o with width := d1, height := d2 }
  else { o with width := d2, height := d1 }

/-- The body of the second `for` loop of `randomize` for obstacle `i` (`0` or `1`):
`rx`, `ry` are the values of its two `rand()` calls. -/
def place (i rx ry : ℕ) (o : Obstacle) : Obstacle :=
  let x : ℚ := (rx % 100 : ℕ) * (quadrantBounds i 1 - quadrantBounds i 0 - o.width) / 100.0
    + quadrantBounds i 0
  let y : ℚ := (ry % 100 : ℕ) * (quadrantBounds i 3 - quadrantBounds i 2 - o.height) / 100.0
    + quadrantBounds i 2 + o.height
  { o with x := x, y := y }

/-- The `if` branch of the final conditional of `randomize` (target in quadrant 2,
obstacle 2 in quadrant 3): the new target location and obstacle 2. `r0 .. r3` are the
values of the branch's four `rand()` calls, `o1` is `mObstacles[1]`. -/
def targetQuadrant2 (r0 r1 r2 r3 : ℕ) (o1 o2 : Obstacle) (t : Position ℚ) :
    Position ℚ × Obstacle :=
  let tx : ℚ :=
    (r0 % 100 : ℕ) *
    (quadrantBounds 2 1 - 0.3 - max (quadrantBounds 2 0) (o1.x + o1.width / 2 + 0.5)
      - TARGET_DIAMETER) / 100.0 +
    max (quadrantBounds 2 0) (o1.x + o1.width / 2 + 0.5) + TARGET_DIAMETER
  let ty : ℚ :=
    (r1 % 100 : ℕ) *
    (quadrantBounds 2 3 - quadrantBounds 2 2 - TARGET_DIAMETER) / 100.0 +
    quadrantBounds 2 2 + TARGET_DIAMETER
  let ox : ℚ :=
    (r2 % 100 : ℕ) *
    (quadrantBounds 3 1 - quadrantBounds 3 0 - o2.width) / 100.0 +
    quadrantBounds 3 0
  let oy : ℚ := max
    ((r3 % 100 : ℕ) *
      (quadrantBounds 3 3 - quadrantBounds 3 2 - o2.height) / 100.0 +
      quadrantBounds 3 2 + o2.height)
    (ty + TARGET_DIAMETER / 2 + 0.5)
  ({ t with x := tx, y := ty }, { o2 with x := ox, y := oy })

/-- The `else` branch of the final conditional of `randomize` (target in quadrant 3,
obstacle 2 in quadrant 2): the new target location and obstacle 2. `r0 .. r3` are the
values of the branch's four `rand()` calls, `o0` is `mObstacles[0]`. -/
def targetQuadrant3 (r0 r1 r2 r3 : ℕ) (o0 o2 : Obstacle) (t : Position ℚ) :
    Position ℚ × Obstacle :=
  let tx : ℚ :=
    (r0 % 100 : ℕ) *
    (quadrantBounds 3 1 - 0.3 - max (quadrantBounds 3 0) (o0.x + o0.width / 2 + 0.5)
      - TARGET_DIAMETER) / 100.0 +
    max (quadrantBounds 3 0) (o0.x + o0.width / 2 + 0.5) + TARGET_DIAMETER
  let ty : ℚ :=
    (r1 % 100 : ℕ) *
    (quadrantBounds 3 3 - quadrantBounds 3 2 - TARGET_DIAMETER) / 100.0 +
    quadrantBounds 3 2 + TARGET_DIAMETER
  let ox : ℚ :=
    (r2 % 100 : ℕ) *
    (quadrantBounds 2 1 - quadrantBounds 2 0 - o2.width) / 100.0 +
    quadrantBounds 2 0
  let oy : ℚ := min
    ((r3 % 100 : ℕ) *
      (quadrantBounds 2 3 - quadrantBounds 2 2 - o2.height) / 100.0 +
      quadrantBounds 2 2 + o2.height)
    (ty - TARGET_DIAMETER / 2 - 0.5)
  ({ t with x := tx, y := ty }, { o2 with x := ox, y := oy })

/-- `Arena::randomize`. The fifteen `rand()` calls are, in order: start lane, start
heading, `largeObstacleQuadrant`, the orientations of obstacles 0, 1, 2, then x and y of
obstacle 0, x and y of obstacle 1, the target coin, and in the chosen branch target x,
target y, obstacle 2 x, obstacle 2 y. -/
def randomize (rand : ℕ → ℕ) (s : State) : State :=
  let start : Position ℚ :=
    { s.mStartingLocation with
      x := 0.35
      y := 0.4 + (rand 0 % 5 : ℕ) * 0.3
      theta := (rand 1 % 4 : ℕ) * PI / 2 - PI }
  let largeObstacleQuadrant := rand 2 % 3
  let o0 := place 0 (rand 6) (rand 7) (resize largeObstacleQuadrant 0 (rand 3) s.mObstacles0)
  let o1 := place 1 (rand 8) (rand 9) (resize largeObstacleQuadrant 1 (rand 4) s.mObstacles1)
  let o2 := resize largeObstacleQuadrant 2 (rand 5) s.mObstacles2
  let r :=
    if rand 10 % 2 ≠ 0 then
      targetQuadrant2 (rand 11) (rand 12) (rand 13) (rand 14) o1 o2 s.mTargetLocation
    else
      targetQuadrant3 (rand 11) (rand 12) (rand 13) (rand 14) o0 o2 s.mTargetLocation
  { s with
    mStartingLocation := start
    mObstacles0 := o0
    mObstacles1 := o1
    mObstacles2 := r.2
    mTargetLocation := r.1 }

/-! ## Notions used by the statements -/

/-- The first corner of the last detection of the list that carries the given id. -/
def lastCorner (id : ℤ) (markers : List Detection) : Option Point2f :=
  ((markers.filter (fun m => m.id = id)).getLast?).map (fun m => m.c0)

/-- The pixel a reference marker sets: the truncated first corner of the last detection
with that id, or the previous value when the frame has no such detection. -/
noncomputable def referencePx (id : ℤ) (markers : List Detection) (previous : ℤ × ℤ) :
    ℤ × ℤ :=
  match lastCorner id markers with
  | some c => (toInt c.x, toInt c.y)
  | none => previous

/-- The pixel centre of the square marker whose side is `c0 → c1` and whose other
corners lie on the clockwise side in the image:
`c0 + (c1 - c0) / 2 + R (c1 - c0) / 2` with `R (dx, dy) = (-dy, dx)`. -/
noncomputable def markerCentre (m : Detection) : Point2f :=
  ⟨m.c0.x + (m.c1.x - m.c0.x) / 2 + (-(m.c1.y - m.c0.y)) / 2,
   m.c0.y + (m.c1.y - m.c0.y) / 2 + (m.c1.x - m.c0.x) / 2⟩

/-- The arena coordinates of a pixel point, the inverse of `cameraCoordinateF`: the
offset from `mOriginPx`, vertical axis flipped, is rotated back by `mTheta` and divided
by `mPpm`. -/
noncomputable def arenaCoordinate (s : State) (p : Point2f) : ℝ × ℝ :=
  let fx := p.x - s.mOriginPx.1
  let fy := s.mOriginPx.2 - p.y
  ((fx * Real.cos s.mTheta + fy * Real.sin s.mTheta) / s.mPpm,
   (fy * Real.cos s.mTheta - fx * Real.sin s.mTheta) / s.mPpm)

/-- The rectangle `[x, x + width] × [y - height, y]` of an obstacle lies inside the box
`[minX, maxX] × [minY, maxY]`. -/
def rectInside (o : Obstacle) (minX maxX minY maxY : ℚ) : Prop :=
  minX ≤ o.x ∧ o.x + o.width ≤ maxX ∧ minY ≤ o.y - o.height ∧ o.y ≤ maxY

instance (o : Obstacle) (minX maxX minY maxY : ℚ) :
    Decidable (rectInside o minX maxX minY maxY) := by
  unfold rectInside; infer_instance

/-- The disk of the given radius around `c` lies inside the box
`[minX, maxX] × [minY, maxY]`. -/
def diskInside (c : Position ℚ) (radius minX maxX minY maxY : ℚ) : Prop :=
  minX ≤ c.x - radius ∧ c.x + radius ≤ maxX ∧ minY ≤ c.y - radius ∧ c.y + radius ≤ maxY

instance (c : Position ℚ) (radius minX maxX minY maxY : ℚ) :
    Decidable (diskInside c radius minX maxX minY maxY) := by
  unfold diskInside; infer_instance

/-- The centre `(x + width / 2, y - height / 2)` of an obstacle's rectangle. -/
def obstacleCentre (o : Obstacle) : ℚ × ℚ := (o.x + o.width / 2, o.y - o.height / 2)

/-- The square of the Euclidean distance of two points. -/
def distSq (p q : ℚ × ℚ) : ℚ := (p.1 - q.1) ^ 2 + (p.2 - q.2) ^ 2

/-- The Euclidean distance of two points. -/
noncomputable def distance (p q : ℚ × ℚ) : ℝ := Real.sqrt (distSq p q : ℚ)

/-- The obstacle bordering the target's quadrant in the state `randomize` returns for the
draws `rand`: obstacle 1 when the coin `rand 10` puts the target into quadrant 2, obstacle 0
when it puts the target into quadrant 3. -/
def neighbour (rand : ℕ → ℕ) (s : State) : Obstacle :=
  if rand 10 % 2 ≠ 0 then s.mObstacles1 else s.mObstacles0

/-- An obstacle of the major size: `{width, height} = {0.41, 0.23}`. -/
def isMajor (o : Obstacle) : Prop :=
  (o.width = 0.41 ∧ o.height = 0.23) ∨ (o.width = 0.23 ∧ o.height = 0.41)

instance (o : Obstacle) : Decidable (isMajor o) := by
  unfold isMajor; infer_instance

/-- An obstacle of the minor size: `{width, height} = {0.32, 0.13}`. -/
def isMinor (o : Obstacle) : Prop :=
  (o.width = 0.32 ∧ o.height = 0.13) ∨ (o.width = 0.13 ∧ o.height = 0.32)

instance (o : Obstacle) : Decidable (isMinor o) := by
  unfold isMinor; infer_instance

/-- The rectangles `[x, x + width] × [y - height, y]` of two obstacles have a common
point. -/
def rectsIntersect (a b : Obstacle) : Prop :=
  a.x ≤ b.x + b.width ∧ b.x ≤ a.x + a.width ∧ a.y - a.height ≤ b.y ∧ b.y - b.height ≤ a.y

instance (a b : Obstacle) : Decidable (rectsIntersect a b) := by
  unfold rectsIntersect; infer_instance

/-- The projections of the disk of the given radius around `c` and of the rectangle of `o`
are separated along the x axis or along the y axis. -/
def diskClearOf (c : Position ℚ) (radius : ℚ) (o : Obstacle) : Prop :=
  o.x + o.width < c.x - radius ∨ c.x + radius < o.x ∨
    o.y < c.y - radius ∨ c.y + radius < o.y - o.height

instance (c : Position ℚ) (radius : ℚ) (o : Obstacle) : Decidable (diskClearOf c radius o) := by
  unfold diskClearOf; infer_instance

/-- The amounts the first branch (`cos(theta) >= 0`) of `translate` adds to `A` and `B`. -/
noncomputable def centreShiftFirst (theta markerSide : ℝ) : ℝ × ℝ :=
  (Real.sqrt 2 * markerSide / 2 * Real.cos (Real.pi / 4 - theta),
   -(Real.sqrt 2 * markerSide / 2 * Real.sin (Real.pi / 4 - theta)))

/-- The amounts the second branch (`cos(theta) < 0`) of `translate` adds to `A` and `B`. -/
noncomputable def centreShiftSecond (theta markerSide : ℝ) : ℝ × ℝ :=
  (-(Real.sqrt 2 * markerSide / 2 * Real.sin (theta - 3 * Real.pi / 4)),
   Real.sqrt 2 * markerSide / 2 * Real.cos (theta - 3 * Real.pi / 4))

/-- The decimal value of a start lane: `0.4 + k * 0.3`. -/
def lane (k : ℕ) : ℚ := 0.4 + k * 0.3

/-- The value of a start heading: `k * PI / 2 - PI`. -/
def heading (k : ℕ) : ℚ := k * PI / 2 - PI

/-! ## Concrete inputs -/

/-- A state with every member zero and an empty registry. -/
def blank : State :=
  ⟨(0, 0), (0, 0), 0, 0, 0, 0, ⟨0, 0, 0⟩, ⟨0, 0, 0, 0⟩, ⟨0, 0, 0, 0⟩, ⟨0, 0, 0, 0⟩,
    ⟨0, 0, 0⟩, qmapClear⟩

/-- An untilted calibration: origin pixel `(500, 500)`, 25 pixels per metre, `mTheta = 0`. -/
noncomputable def levelCalibration : State := { blank with mOriginPx := (500, 500), mPpm := 25 }

/-- Draws that make obstacle 2 the major obstacle, standing upright, with the target in
quadrant 3 at its lowest lane: `rand()` returns `2` at call 2 and `0` otherwise. -/
def drawsUprightMajor : ℕ → ℕ := fun k => if k = 2 then 2 else 0

/-- Draws that put the target into quadrant 2 at its highest step: `rand()` returns `1`
at call 10 (the coin), `99` at call 12 (target y) and `0` otherwise. -/
def drawsHighTarget : ℕ → ℕ := fun k => if k = 10 then 1 else if k = 12 then 99 else 0

/-- A frame in which the arena x axis points straight down the image: reference marker 0
at pixel `(100, 100)`, reference marker 1 at pixel `(100, 500)`. -/
noncomputable def tiltedFrame : List Detection :=
  [⟨0, ⟨100, 100⟩, ⟨120, 100⟩⟩, ⟨1, ⟨100, 500⟩, ⟨120, 500⟩⟩]

/-- A tracked marker with id 5, axis-parallel in the image, 20 pixels wide. -/
noncomputable def trackedMarker : Detection := ⟨5, ⟨200, 200⟩, ⟨220, 200⟩⟩

/-- A frame with both reference markers on one image row, 400 pixels apart. -/
noncomputable def wideFrame : List Detection :=
  [⟨0, ⟨100, 400⟩, ⟨120, 400⟩⟩, ⟨1, ⟨500, 400⟩, ⟨520, 400⟩⟩]

/-- A tracked marker with id 5 seen in the next frame. -/
noncomputable def laterMarker : Detection := ⟨5, ⟨200, 300⟩, ⟨220, 300⟩⟩

/-- The next frame: the reference markers now 200 pixels apart, then the tracked marker. -/
noncomputable def narrowFrame : List Detection :=
  [⟨0, ⟨100, 400⟩, ⟨120, 400⟩⟩, ⟨1, ⟨300, 400⟩, ⟨320, 400⟩⟩, laterMarker]

/-- Draws that make obstacle 1 the major obstacle lying flat (width `0.41`), half way
across its quadrant, with the target in quadrant 2 at its first step next to it:
`rand()` returns `1` at calls 2, 4 and 10, `50` at call 8, `11` at call 9, `0` otherwise. -/
def drawsNearNeighbour : ℕ → ℕ := fun k =>
  if k = 2 then 1 else if k = 4 then 1 else if k = 8 then 50 else if k = 9 then 11
  else if k = 10 then 1 else 0

/-- A frame in which reference marker 1 is seen 100 pixels to the left of the default
origin pixel `(500, 500)`, on the same image row. -/
noncomputable def leftFrame : List Detection := [⟨1, ⟨400, 500⟩, ⟨420, 500⟩⟩]

/-- A frame in which reference marker 1 is seen at the default origin pixel `(500, 500)`. -/
noncomputable def coincidentFrame : List Detection := [⟨1, ⟨500, 500⟩, ⟨520, 500⟩⟩]

/-- A tracked marker with id 5 whose heading `c1 - c0 = (0, 20)` points down the image,
along the arena x axis of `tiltedFrame`. -/
noncomputable def axisMarker : Detection := ⟨5, ⟨200, 200⟩, ⟨200, 220⟩⟩

/-! # Theorems -/

/-! ## The randomizer: auxiliary bounds -/

theorem max_eq (a b : ℚ) : Arena.max a b = if a > b then a else b := rfl

theorem min_eq (a b : ℚ) : Arena.min a b = if a < b then a else b := rfl

theorem max_ge_left (a b : ℚ) : a ≤ Arena.max a b := by
  unfold Arena.max; split_ifs with h <;> linarith

theorem max_ge_right (a b : ℚ) : b ≤ Arena.max a b := by
  unfold Arena.max; split_ifs with h <;> linarith

theorem max_le_of (a b c : ℚ) (ha : a ≤ c) (hb : b ≤ c) : Arena.max a b ≤ c := by
  unfold Arena.max; split_ifs with h <;> linarith

theorem min_le_left (a b : ℚ) : Arena.min a b ≤ a := by
  unfold Arena.min; split_ifs with h <;> linarith

theorem min_le_right (a b : ℚ) : Arena.min a b ≤ b := by
  unfold Arena.min; split_ifs with h <;> linarith

theorem le_min_of (a b c : ℚ) (ha : c ≤ a) (hb : c ≤ b) : c ≤ Arena.min a b := by
  unfold Arena.min; split_ifs with h <;> linarith

/-- A percentage step `(r % 100) * d / 100.0 + m` of a non-negative span `d` stays in
`[m, m + d]`. -/
theorem step_bounds (r : ℕ) (d m : ℚ) (hd : 0 ≤ d) :
    m ≤ ((r % 100 : ℕ) : ℚ) * d / 100.0 + m ∧ ((r % 100 : ℕ) : ℚ) * d / 100.0 + m ≤ d + m := by
  have h1 : ((r % 100 : ℕ) : ℚ) ≤ 99 := by
    have : r % 100 ≤ 99 := Nat.le_of_lt_succ (Nat.mod_lt r (by norm_num))
    exact_mod_cast this
  have h0 : (0 : ℚ) ≤ ((r % 100 : ℕ) : ℚ) := Nat.cast_nonneg _
  have h2 : ((r % 100 : ℕ) : ℚ) * d ≤ 99 * d := mul_le_mul_of_nonneg_right h1 hd
  have h3 : 0 ≤ ((r % 100 : ℕ) : ℚ) * d := mul_nonneg h0 hd
  constructor
  · norm_num; positivity
  · norm_num; linarith

/-- After `resize` the obstacle has one of the four size/orientation outcomes. -/
theorem resize_dims (L i r : ℕ) (o : Obstacle) :
    ((resize L i r o).width = 0.41 ∧ (resize L i r o).height = 0.23) ∨
    ((resize L i r o).width = 0.23 ∧ (resize L i r o).height = 0.41) ∨
    ((resize L i r o).width = 0.32 ∧ (resize L i r o).height = 0.13) ∨
    ((resize L i r o).width = 0.13 ∧ (resize L i r o).height = 0.32) := by
  unfold resize
  by_cases h1 : i = L <;> by_cases h2 : r % 2 ≠ 0 <;> simp [h1, h2]

theorem resize_range (L i r : ℕ) (o : Obstacle) :
    (0.13 ≤ (resize L i r o).width ∧ (resize L i r o).width ≤ 0.41) ∧
    (0.13 ≤ (resize L i r o).height ∧ (resize L i r o).height ≤ 0.41) := by
  rcases resize_dims L i r o with h | h | h | h <;> rw [h.1, h.2] <;> norm_num

theorem place_x (i rx ry : ℕ) (o : Obstacle) : (place i rx ry o).x =
    ((rx % 100 : ℕ) : ℚ) * (quadrantBounds i 1 - quadrantBounds i 0 - o.width) / 100.0
      + quadrantBounds i 0 := rfl

theorem place_y (i rx ry : ℕ) (o : Obstacle) : (place i rx ry o).y =
    ((ry % 100 : ℕ) : ℚ) * (quadrantBounds i 3 - quadrantBounds i 2 - o.height) / 100.0
      + quadrantBounds i 2 + o.height := rfl

theorem place_width (i rx ry : ℕ) (o : Obstacle) : (place i rx ry o).width = o.width := rfl

theorem place_height (i rx ry : ℕ) (o : Obstacle) : (place i rx ry o).height = o.height := rfl

/-- An obstacle of side lengths in `[0, 0.41]` that `place` puts into quadrant `0` or `1`
lies inside that quadrant, and `place` keeps its size. -/
theorem place_bounds (i rx ry : ℕ) (o : Obstacle) (hi : i = 0 ∨ i = 1)
    (hw : 0 ≤ o.width ∧ o.width ≤ 0.41) (hh : 0 ≤ o.height ∧ o.height ≤ 0.41) :
    (place i rx ry o).width = o.width ∧ (place i rx ry o).height = o.height ∧
    quadrantBounds i 0 ≤ (place i rx ry o).x ∧
    (place i rx ry o).x + (place i rx ry o).width ≤ quadrantBounds i 1 ∧
    quadrantBounds i 2 ≤ (place i rx ry o).y - (place i rx ry o).height ∧
    (place i rx ry o).y ≤ quadrantBounds i 3 := by
  have hx := step_bounds rx (quadrantBounds i 1 - quadrantBounds i 0 - o.width)
    (quadrantBounds i 0)
  have hy := step_bounds ry (quadrantBounds i 3 - quadrantBounds i 2 - o.height)
    (quadrantBounds i 2)
  rw [place_x, place_y, place_width, place_height]
  rcases hi with rfl | rfl
  · simp only [quadrantBounds, quadrantBoundsTable, List.getD_cons_zero, List.getD_cons_succ]
      at hx hy ⊢
    have hx2 := hx (by norm_num; linarith [hw.2])
    have hy2 := hy (by norm_num; linarith [hh.2])
    refine ⟨trivial, trivial, hx2.1, ?_, ?_, ?_⟩ <;> linarith [hx2.2, hy2.1, hy2.2]
  · simp only [quadrantBounds, quadrantBoundsTable, List.getD_cons_zero, List.getD_cons_succ]
      at hx hy ⊢
    have hx2 := hx (by norm_num; linarith [hw.2])
    have hy2 := hy (by norm_num; linarith [hh.2])
    refine ⟨trivial, trivial, hx2.1, ?_, ?_, ?_⟩ <;> linarith [hx2.2, hy2.1, hy2.2]

theorem randomize_obstacles01 (rand : ℕ → ℕ) (s : State) :
    (1.4 ≤ (randomize rand s).mObstacles0.x ∧
      (randomize rand s).mObstacles0.x + (randomize rand s).mObstacles0.width ≤ 2.25 ∧
      1.0 ≤ (randomize rand s).mObstacles0.y - (randomize rand s).mObstacles0.height ∧
      (randomize rand s).mObstacles0.y ≤ 1.8) ∧
    (1.4 ≤ (randomize rand s).mObstacles1.x ∧
      (randomize rand s).mObstacles1.x + (randomize rand s).mObstacles1.width ≤ 2.25 ∧
      0.2 ≤ (randomize rand s).mObstacles1.y - (randomize rand s).mObstacles1.height ∧
      (randomize rand s).mObstacles1.y ≤ 1.0) := by
  have r0 := resize_range (rand 2 % 3) 0 (rand 3) s.mObstacles0
  have r1 := resize_range (rand 2 % 3) 1 (rand 4) s.mObstacles1
  have p0 := place_bounds 0 (rand 6) (rand 7) _ (Or.inl rfl)
    ⟨by linarith [r0.1.1], r0.1.2⟩ ⟨by linarith [r0.2.1], r0.2.2⟩
  have p1 := place_bounds 1 (rand 8) (rand 9) _ (Or.inr rfl)
    ⟨by linarith [r1.1.1], r1.1.2⟩ ⟨by linarith [r1.2.1], r1.2.2⟩
  simp only [quadrantBounds, quadrantBoundsTable, List.getD_cons_zero, List.getD_cons_succ]
    at p0 p1
  exact ⟨⟨p0.2.2.1, p0.2.2.2.1, p0.2.2.2.2.1, p0.2.2.2.2.2⟩,
    ⟨p1.2.2.1, p1.2.2.2.1, p1.2.2.2.2.1, p1.2.2.2.2.2⟩⟩

theorem targetQuadrant2_fst (r0 r1 r2 r3 : ℕ) (o1 o2 : Obstacle) (t : Position ℚ) :
    (targetQuadrant2 r0 r1 r2 r3 o1 o2 t).1.x =
      ((r0 % 100 : ℕ) : ℚ) *
      (quadrantBounds 2 1 - 0.3 - max (quadrantBounds 2 0) (o1.x + o1.width / 2 + 0.5)
        - TARGET_DIAMETER) / 100.0 +
      (max (quadrantBounds 2 0) (o1.x + o1.width / 2 + 0.5) + TARGET_DIAMETER) ∧
    (targetQuadrant2 r0 r1 r2 r3 o1 o2 t).1.y =
      ((r1 % 100 : ℕ) : ℚ) *
      (quadrantBounds 2 3 - quadrantBounds 2 2 - TARGET_DIAMETER) / 100.0 +
      (quadrantBounds 2 2 + TARGET_DIAMETER) :=
  ⟨by simp only [targetQuadrant2]; ring, by simp only [targetQuadrant2]; ring⟩

theorem targetQuadrant2_snd (r0 r1 r2 r3 : ℕ) (o1 o2 : Obstacle) (t : Position ℚ) :
    (targetQuadrant2 r0 r1 r2 r3 o1 o2 t).2.width = o2.width ∧
    (targetQuadrant2 r0 r1 r2 r3 o1 o2 t).2.height = o2.height ∧
    (targetQuadrant2 r0 r1 r2 r3 o1 o2 t).2.x =
      ((r2 % 100 : ℕ) : ℚ) *
      (quadrantBounds 3 1 - quadrantBounds 3 0 - o2.width) / 100.0 + quadrantBounds 3 0 ∧
    (targetQuadrant2 r0 r1 r2 r3 o1 o2 t).2.y = max
      (((r3 % 100 : ℕ) : ℚ) *
        (quadrantBounds 3 3 - quadrantBounds 3 2 - o2.height) / 100.0 +
        (quadrantBounds 3 2 + o2.height))
      ((targetQuadrant2 r0 r1 r2 r3 o1 o2 t).1.y + TARGET_DIAMETER / 2 + 0.5) :=
  ⟨rfl, rfl, rfl, by simp only [targetQuadrant2, add_assoc]⟩

theorem targetQuadrant3_fst (r0 r1 r2 r3 : ℕ) (o0 o2 : Obstacle) (t : Position ℚ) :
    (targetQuadrant3 r0 r1 r2 r3 o0 o2 t).1.x =
      ((r0 % 100 : ℕ) : ℚ) *
      (quadrantBounds 3 1 - 0.3 - max (quadrantBounds 3 0) (o0.x + o0.width / 2 + 0.5)
        - TARGET_DIAMETER) / 100.0 +
      (max (quadrantBounds 3 0) (o0.x + o0.width / 2 + 0.5) + TARGET_DIAMETER) ∧
    (targetQuadrant3 r0 r1 r2 r3 o0 o2 t).1.y =
      ((r1 % 100 : ℕ) : ℚ) *
      (quadrantBounds 3 3 - quadrantBounds 3 2 - TARGET_DIAMETER) / 100.0 +
      (quadrantBounds 3 2 + TARGET_DIAMETER) :=
  ⟨by simp only [targetQuadrant3]; ring, by simp only [targetQuadrant3]; ring⟩

theorem targetQuadrant3_snd (r0 r1 r2 r3 : ℕ) (o0 o2 : Obstacle) (t : Position ℚ) :
    (targetQuadrant3 r0 r1 r2 r3 o0 o2 t).2.width = o2.width ∧
    (targetQuadrant3 r0 r1 r2 r3 o0 o2 t).2.height = o2.height ∧
    (targetQuadrant3 r0 r1 r2 r3 o0 o2 t).2.x =
      ((r2 % 100 : ℕ) : ℚ) *
      (quadrantBounds 2 1 - quadrantBounds 2 0 - o2.width) / 100.0 + quadrantBounds 2 0 ∧
    (targetQuadrant3 r0 r1 r2 r3 o0 o2 t).2.y = min
      (((r3 % 100 : ℕ) : ℚ) *
        (quadrantBounds 2 3 - quadrantBounds 2 2 - o2.height) / 100.0 +
        (quadrantBounds 2 2 + o2.height))
      ((targetQuadrant3 r0 r1 r2 r3 o0 o2 t).1.y - TARGET_DIAMETER / 2 - 0.5) :=
  ⟨rfl, rfl, rfl, by simp only [targetQuadrant3, add_assoc]⟩

/-- Where the `if` branch puts the target and obstacle 2. -/
theorem targetQuadrant2_bounds (r0 r1 r2 r3 : ℕ) (o1 o2 : Obstacle) (t : Position ℚ)
    (ho1 : o1.x + o1.width / 2 ≤ 2.25)
    (hw : 0 ≤ o2.width ∧ o2.width ≤ 0.41) (hh : 0 ≤ o2.height ∧ o2.height ≤ 0.41) :
    (2.43 ≤ (targetQuadrant2 r0 r1 r2 r3 o1 o2 t).1.x ∧
      (targetQuadrant2 r0 r1 r2 r3 o1 o2 t).1.x ≤ 3.5) ∧
    (0.38 ≤ (targetQuadrant2 r0 r1 r2 r3 o1 o2 t).1.y ∧
      (targetQuadrant2 r0 r1 r2 r3 o1 o2 t).1.y ≤ 1.0) ∧
    (2.25 ≤ (targetQuadrant2 r0 r1 r2 r3 o1 o2 t).2.x ∧
      (targetQuadrant2 r0 r1 r2 r3 o1 o2 t).2.x +
        (targetQuadrant2 r0 r1 r2 r3 o1 o2 t).2.width ≤ 3.8) ∧
    (1.0 ≤ (targetQuadrant2 r0 r1 r2 r3 o1 o2 t).2.y -
        (targetQuadrant2 r0 r1 r2 r3 o1 o2 t).2.height ∧
      (targetQuadrant2 r0 r1 r2 r3 o1 o2 t).2.y ≤ 1.8) ∧
    (targetQuadrant2 r0 r1 r2 r3 o1 o2 t).1.y + 0.59 ≤
      (targetQuadrant2 r0 r1 r2 r3 o1 o2 t).2.y := by
  obtain ⟨ex, ey⟩ := targetQuadrant2_fst r0 r1 r2 r3 o1 o2 t
  obtain ⟨ew, eh, eox, eoy⟩ := targetQuadrant2_snd r0 r1 r2 r3 o1 o2 t
  have hM1 := max_ge_left (quadrantBounds 2 0) (o1.x + o1.width / 2 + 0.5)
  have hM2 := max_le_of (quadrantBounds 2 0) (o1.x + o1.width / 2 + 0.5) 2.75
    (by simp only [quadrantBounds, quadrantBoundsTable, List.getD_cons_zero,
      List.getD_cons_succ]; norm_num) (by linarith)
  have hx := step_bounds r0 (quadrantBounds 2 1 - 0.3 -
    max (quadrantBounds 2 0) (o1.x + o1.width / 2 + 0.5) - TARGET_DIAMETER)
    (max (quadrantBounds 2 0) (o1.x + o1.width / 2 + 0.5) + TARGET_DIAMETER)
  have hy := step_bounds r1 (quadrantBounds 2 3 - quadrantBounds 2 2 - TARGET_DIAMETER)
    (quadrantBounds 2 2 + TARGET_DIAMETER)
  have hox := step_bounds r2 (quadrantBounds 3 1 - quadrantBounds 3 0 - o2.width)
    (quadrantBounds 3 0)
  have hoy := step_bounds r3 (quadrantBounds 3 3 - quadrantBounds 3 2 - o2.height)
    (quadrantBounds 3 2 + o2.height)
  rw [← ex] at hx; rw [← ey] at hy; rw [← eox] at hox
  have hc1 := max_ge_left (((r3 % 100 : ℕ) : ℚ) *
        (quadrantBounds 3 3 - quadrantBounds 3 2 - o2.height) / 100.0 +
        (quadrantBounds 3 2 + o2.height))
      ((targetQuadrant2 r0 r1 r2 r3 o1 o2 t).1.y + TARGET_DIAMETER / 2 + 0.5)
  have hc2 := max_ge_right (((r3 % 100 : ℕ) : ℚ) *
        (quadrantBounds 3 3 - quadrantBounds 3 2 - o2.height) / 100.0 +
        (quadrantBounds 3 2 + o2.height))
      ((targetQuadrant2 r0 r1 r2 r3 o1 o2 t).1.y + TARGET_DIAMETER / 2 + 0.5)
  have hc3 := max_le_of (((r3 % 100 : ℕ) : ℚ) *
        (quadrantBounds 3 3 - quadrantBounds 3 2 - o2.height) / 100.0 +
        (quadrantBounds 3 2 + o2.height))
      ((targetQuadrant2 r0 r1 r2 r3 o1 o2 t).1.y + TARGET_DIAMETER / 2 + 0.5) 1.8
  rw [← eoy] at hc1 hc2 hc3
  rw [ew, eh]
  simp only [quadrantBounds, quadrantBoundsTable, List.getD_cons_zero, List.getD_cons_succ,
    TARGET_DIAMETER] at hM1 hM2 hx hy hox hoy hc1 hc2 hc3
  have hx2 := hx (by linarith)
  have hy2 := hy (by norm_num)
  have hox2 := hox (by linarith [hw.2])
  have hoy2 := hoy (by linarith [hh.2])
  have hc4 := hc3 (by linarith [hoy2.2]) (by linarith [hy2.2])
  norm_num at hx2 hy2 hox2 hoy2 hc1 hc2 hc4 ⊢
  refine ⟨⟨?_, ?_⟩, ⟨?_, ?_⟩, ⟨?_, ?_⟩, ⟨?_, ?_⟩, ?_⟩ <;> linarith [hx2.1, hx2.2, hy2.1, hy2.2,
    hox2.1, hox2.2, hoy2.1, hoy2.2]

/-- Where the `else` branch puts the target and obstacle 2. -/
theorem targetQuadrant3_bounds (r0 r1 r2 r3 : ℕ) (o0 o2 : Obstacle) (t : Position ℚ)
    (ho0 : o0.x + o0.width / 2 ≤ 2.25)
    (hw : 0 ≤ o2.width ∧ o2.width ≤ 0.41) (hh : 0 ≤ o2.height ∧ o2.height ≤ 0.41) :
    (2.43 ≤ (targetQuadrant3 r0 r1 r2 r3 o0 o2 t).1.x ∧
      (targetQuadrant3 r0 r1 r2 r3 o0 o2 t).1.x ≤ 3.5) ∧
    (1.18 ≤ (targetQuadrant3 r0 r1 r2 r3 o0 o2 t).1.y ∧
      (targetQuadrant3 r0 r1 r2 r3 o0 o2 t).1.y ≤ 1.8) ∧
    (2.25 ≤ (targetQuadrant3 r0 r1 r2 r3 o0 o2 t).2.x ∧
      (targetQuadrant3 r0 r1 r2 r3 o0 o2 t).2.x +
        (targetQuadrant3 r0 r1 r2 r3 o0 o2 t).2.width ≤ 3.8) ∧
    (0.18 ≤ (targetQuadrant3 r0 r1 r2 r3 o0 o2 t).2.y -
        (targetQuadrant3 r0 r1 r2 r3 o0 o2 t).2.height ∧
      (targetQuadrant3 r0 r1 r2 r3 o0 o2 t).2.y ≤ 1.0) ∧
    (targetQuadrant3 r0 r1 r2 r3 o0 o2 t).2.y ≤
      (targetQuadrant3 r0 r1 r2 r3 o0 o2 t).1.y - 0.59 := by
  obtain ⟨ex, ey⟩ := targetQuadrant3_fst r0 r1 r2 r3 o0 o2 t
  obtain ⟨ew, eh, eox, eoy⟩ := targetQuadrant3_snd r0 r1 r2 r3 o0 o2 t
  have hM1 := max_ge_left (quadrantBounds 3 0) (o0.x + o0.width / 2 + 0.5)
  have hM2 := max_le_of (quadrantBounds 3 0) (o0.x + o0.width / 2 + 0.5) 2.75
    (by simp only [quadrantBounds, quadrantBoundsTable, List.getD_cons_zero,
      List.getD_cons_succ]; norm_num) (by linarith)
  have hx := step_bounds r0 (quadrantBounds 3 1 - 0.3 -
    max (quadrantBounds 3 0) (o0.x + o0.width / 2 + 0.5) - TARGET_DIAMETER)
    (max (quadrantBounds 3 0) (o0.x + o0.width / 2 + 0.5) + TARGET_DIAMETER)
  have hy := step_bounds r1 (quadrantBounds 3 3 - quadrantBounds 3 2 - TARGET_DIAMETER)
    (quadrantBounds 3 2 + TARGET_DIAMETER)
  have hox := step_bounds r2 (quadrantBounds 2 1 - quadrantBounds 2 0 - o2.width)
    (quadrantBounds 2 0)
  have hoy := step_bounds r3 (quadrantBounds 2 3 - quadrantBounds 2 2 - o2.height)
    (quadrantBounds 2 2 + o2.height)
  rw [← ex] at hx; rw [← ey] at hy; rw [← eox] at hox
  have hc1 := min_le_left (((r3 % 100 : ℕ) : ℚ) *
        (quadrantBounds 2 3 - quadrantBounds 2 2 - o2.height) / 100.0 +
        (quadrantBounds 2 2 + o2.height))
      ((targetQuadrant3 r0 r1 r2 r3 o0 o2 t).1.y - TARGET_DIAMETER / 2 - 0.5)
  have hc2 := min_le_right (((r3 % 100 : ℕ) : ℚ) *
        (quadrantBounds 2 3 - quadrantBounds 2 2 - o2.height) / 100.0 +
        (quadrantBounds 2 2 + o2.height))
      ((targetQuadrant3 r0 r1 r2 r3 o0 o2 t).1.y - TARGET_DIAMETER / 2 - 0.5)
  have hc3 := le_min_of (((r3 % 100 : ℕ) : ℚ) *
        (quadrantBounds 2 3 - quadrantBounds 2 2 - o2.height) / 100.0 +
        (quadrantBounds 2 2 + o2.height))
      ((targetQuadrant3 r0 r1 r2 r3 o0 o2 t).1.y - TARGET_DIAMETER / 2 - 0.5)
      (0.18 + o2.height)
  rw [← eoy] at hc1 hc2 hc3
  rw [ew, eh]
  simp only [quadrantBounds, quadrantBoundsTable, List.getD_cons_zero, List.getD_cons_succ,
    TARGET_DIAMETER] at hM1 hM2 hx hy hox hoy hc1 hc2 hc3
  have hx2 := hx (by linarith)
  have hy2 := hy (by norm_num)
  have hox2 := hox (by linarith [hw.2])
  have hoy2 := hoy (by linarith [hh.2])
  have hc4 := hc3 (by linarith [hoy2.1]) (by linarith [hy2.1, hh.2])
  norm_num at hx2 hy2 hox2 hoy2 hc1 hc2 hc4 ⊢
  refine ⟨⟨?_, ?_⟩, ⟨?_, ?_⟩, ⟨?_, ?_⟩, ⟨?_, ?_⟩, ?_⟩ <;> linarith [hx2.1, hx2.2, hy2.1, hy2.2,
    hox2.1, hox2.2, hoy2.1, hoy2.2]

/-- The target and obstacle 2 after `randomize`: the result of the branch chosen by the
coin `rand 10`, applied to the resized and placed obstacles. -/
theorem randomize_branch (rand : ℕ → ℕ) (s : State) :
    ((randomize rand s).mTargetLocation, (randomize rand s).mObstacles2) =
      if rand 10 % 2 ≠ 0 then
        targetQuadrant2 (rand 11) (rand 12) (rand 13) (rand 14)
          (place 1 (rand 8) (rand 9) (resize (rand 2 % 3) 1 (rand 4) s.mObstacles1))
          (resize (rand 2 % 3) 2 (rand 5) s.mObstacles2) s.mTargetLocation
      else
        targetQuadrant3 (rand 11) (rand 12) (rand 13) (rand 14)
          (place 0 (rand 6) (rand 7) (resize (rand 2 % 3) 0 (rand 3) s.mObstacles0))
          (resize (rand 2 % 3) 2 (rand 5) s.mObstacles2) s.mTargetLocation := by
  simp only [randomize]

/-- The bounds on the target and obstacle 2 that hold in both branches of `randomize`,
and what each branch adds: the target's band and the clamp inequality. -/
theorem randomize_target_obstacle2 (rand : ℕ → ℕ) (s : State) :
    (2.43 ≤ (randomize rand s).mTargetLocation.x ∧
      (randomize rand s).mTargetLocation.x ≤ 3.5) ∧
    (0.38 ≤ (randomize rand s).mTargetLocation.y ∧
      (randomize rand s).mTargetLocation.y ≤ 1.8) ∧
    (2.25 ≤ (randomize rand s).mObstacles2.x ∧
      (randomize rand s).mObstacles2.x + (randomize rand s).mObstacles2.width ≤ 3.8) ∧
    (0.18 ≤ (randomize rand s).mObstacles2.y - (randomize rand s).mObstacles2.height ∧
      (randomize rand s).mObstacles2.y ≤ 1.8) ∧
    (if rand 10 % 2 ≠ 0 then
      (randomize rand s).mTargetLocation.y ≤ 1.0 ∧
      1.0 ≤ (randomize rand s).mObstacles2.y - (randomize rand s).mObstacles2.height ∧
      (randomize rand s).mTargetLocation.y + 0.59 ≤ (randomize rand s).mObstacles2.y
    else
      1.18 ≤ (randomize rand s).mTargetLocation.y ∧
      (randomize rand s).mObstacles2.y ≤ 1.0 ∧
      (randomize rand s).mObstacles2.y ≤ (randomize rand s).mTargetLocation.y - 0.59) := by
  have hb := randomize_branch rand s
  have r0 := resize_range (rand 2 % 3) 0 (rand 3) s.mObstacles0
  have r1 := resize_range (rand 2 % 3) 1 (rand 4) s.mObstacles1
  have r2 := resize_range (rand 2 % 3) 2 (rand 5) s.mObstacles2
  have p0 := place_bounds 0 (rand 6) (rand 7) _ (Or.inl rfl)
    ⟨by linarith [r0.1.1], r0.1.2⟩ ⟨by linarith [r0.2.1], r0.2.2⟩
  have p1 := place_bounds 1 (rand 8) (rand 9) _ (Or.inr rfl)
    ⟨by linarith [r1.1.1], r1.1.2⟩ ⟨by linarith [r1.2.1], r1.2.2⟩
  simp only [quadrantBounds, quadrantBoundsTable, List.getD_cons_zero, List.getD_cons_succ]
    at p0 p1
  have hw2 : 0 ≤ (resize (rand 2 % 3) 2 (rand 5) s.mObstacles2).width ∧
      (resize (rand 2 % 3) 2 (rand 5) s.mObstacles2).width ≤ 0.41 :=
    ⟨by linarith [r2.1.1], r2.1.2⟩
  have hh2 : 0 ≤ (resize (rand 2 % 3) 2 (rand 5) s.mObstacles2).height ∧
      (resize (rand 2 % 3) 2 (rand 5) s.mObstacles2).height ≤ 0.41 :=
    ⟨by linarith [r2.2.1], r2.2.2⟩
  by_cases hc : rand 10 % 2 ≠ 0
  · rw [if_pos hc] at hb
    rw [if_pos hc]
    have q := targetQuadrant2_bounds (rand 11) (rand 12) (rand 13) (rand 14)
      (place 1 (rand 8) (rand 9) (resize (rand 2 % 3) 1 (rand 4) s.mObstacles1))
      (resize (rand 2 % 3) 2 (rand 5) s.mObstacles2) s.mTargetLocation
      (by have e := p1.1; have h := p1.2.2.2.1; rw [e] at h ⊢; linarith [r1.1.1]) hw2 hh2
    rw [← hb] at q
    obtain ⟨⟨a1, a2⟩, ⟨b1, b2⟩, ⟨c1, c2⟩, ⟨d1, d2⟩, e⟩ := q
    refine ⟨⟨a1, a2⟩, ⟨b1, ?_⟩, ⟨c1, c2⟩, ⟨?_, d2⟩, b2, d1, e⟩ <;> linarith
  · rw [if_neg hc] at hb
    rw [if_neg hc]
    have q := targetQuadrant3_bounds (rand 11) (rand 12) (rand 13) (rand 14)
      (place 0 (rand 6) (rand 7) (resize (rand 2 % 3) 0 (rand 3) s.mObstacles0))
      (resize (rand 2 % 3) 2 (rand 5) s.mObstacles2) s.mTargetLocation
      (by have e := p0.1; have h := p0.2.2.2.1; rw [e] at h ⊢; linarith [r0.1.1]) hw2 hh2
    rw [← hb] at q
    obtain ⟨⟨a1, a2⟩, ⟨b1, b2⟩, ⟨c1, c2⟩, ⟨d1, d2⟩, e⟩ := q
    refine ⟨⟨a1, a2⟩, ⟨?_, b2⟩, ⟨c1, c2⟩, ⟨d1, ?_⟩, b1, d2, e⟩ <;> linarith

/-! ## The coordinate transform: auxiliary identities -/

/-- The side length `markerSide` is the modulus of the heading vector. -/
theorem side_eq_abs (dx dy : ℝ) :
    Real.sqrt (dx * dx + dy * dy) = Complex.abs ⟨dx, dy⟩ := by
  rw [Complex.abs_apply, Complex.normSq_apply]

theorem side_mul_cos_atan2 (dx dy : ℝ) :
    Real.sqrt (dx * dx + dy * dy) * Real.cos (atan2 dy dx) = dx := by
  rw [side_eq_abs, atan2]
  by_cases h : (⟨dx, dy⟩ : ℂ) = 0
  · have hx : dx = 0 := by simpa using congrArg Complex.re h
    rw [h]; simp [hx]
  · rw [Complex.cos_arg h]
    have : Complex.abs ⟨dx, dy⟩ ≠ 0 := by simpa using h
    field_simp

theorem side_mul_sin_atan2 (dx dy : ℝ) :
    Real.sqrt (dx * dx + dy * dy) * Real.sin (atan2 dy dx) = dy := by
  rw [side_eq_abs, atan2]
  by_cases h : (⟨dx, dy⟩ : ℂ) = 0
  · have hy : dy = 0 := by simpa using congrArg Complex.im h
    rw [h]; simp [hy]
  · rw [Complex.sin_arg]
    have : Complex.abs ⟨dx, dy⟩ ≠ 0 := by simpa using h
    field_simp

theorem sqrt_two_mul_self : Real.sqrt 2 * Real.sqrt 2 = 2 :=
  Real.mul_self_sqrt (by norm_num)

/-- First branch of the centre shift, x part. -/
theorem shift_cos_first (t : ℝ) :
    Real.sqrt 2 * Real.cos (Real.pi / 4 - t) = Real.cos t + Real.sin t := by
  rw [Real.cos_sub, Real.cos_pi_div_four, Real.sin_pi_div_four]
  linear_combination (Real.cos t / 2 + Real.sin t / 2) * sqrt_two_mul_self

theorem shift_sin_first (t : ℝ) :
    Real.sqrt 2 * Real.sin (Real.pi / 4 - t) = Real.cos t - Real.sin t := by
  rw [Real.sin_sub, Real.cos_pi_div_four, Real.sin_pi_div_four]
  linear_combination (Real.cos t / 2 - Real.sin t / 2) * sqrt_two_mul_self

theorem cos_three_pi_div_four : Real.cos (3 * Real.pi / 4) = -(Real.sqrt 2 / 2) := by
  have : 3 * Real.pi / 4 = Real.pi - Real.pi / 4 := by ring
  rw [this, Real.cos_pi_sub, Real.cos_pi_div_four]

theorem sin_three_pi_div_four : Real.sin (3 * Real.pi / 4) = Real.sqrt 2 / 2 := by
  have : 3 * Real.pi / 4 = Real.pi - Real.pi / 4 := by ring
  rw [this, Real.sin_pi_sub, Real.sin_pi_div_four]

theorem shift_sin_second (t : ℝ) :
    Real.sqrt 2 * Real.sin (t - 3 * Real.pi / 4) = -(Real.cos t + Real.sin t) := by
  rw [Real.sin_sub, cos_three_pi_div_four, sin_three_pi_div_four]
  linear_combination (-Real.cos t / 2 - Real.sin t / 2) * sqrt_two_mul_self

theorem shift_cos_second (t : ℝ) :
    Real.sqrt 2 * Real.cos (t - 3 * Real.pi / 4) = Real.sin t - Real.cos t := by
  rw [Real.cos_sub, cos_three_pi_div_four, sin_three_pi_div_four]
  linear_combination (Real.sin t / 2 - Real.cos t / 2) * sqrt_two_mul_self

/-- Closed form of `translate`: both branches of the centre shift add
`markerSide / 2 * (cos theta + sin theta)` to `A` and `markerSide / 2 * (sin theta - cos theta)`
to `B`; expanded with `markerSide * cos (atan2 dy dx) = dx` and
`markerSide * sin (atan2 dy dx) = dy`. -/
theorem translate_closed (s : State) (m : Detection) :
    (translate s m).x =
      ((m.c0.x - s.mOriginPx.1) * Real.cos s.mTheta + (s.mOriginPx.2 - m.c0.y) * Real.sin s.mTheta
        + (((m.c1.x - m.c0.x) - (m.c1.y - m.c0.y)) * Real.cos s.mTheta
          + ((m.c1.x - m.c0.x) + (m.c1.y - m.c0.y)) * Real.sin s.mTheta) / 2) / s.mPpm ∧
    (translate s m).y =
      ((s.mOriginPx.2 - m.c0.y) * Real.cos s.mTheta - (m.c0.x - s.mOriginPx.1) * Real.sin s.mTheta
        + (((m.c1.x - m.c0.x) - (m.c1.y - m.c0.y)) * Real.sin s.mTheta
          - ((m.c1.x - m.c0.x) + (m.c1.y - m.c0.y)) * Real.cos s.mTheta) / 2) / s.mPpm ∧
    (translate s m).theta = s.mTheta - atan2 (m.c1.y - m.c0.y) (m.c1.x - m.c0.x) ∧
    (translate s m).id = m.id := by
  have hc := side_mul_cos_atan2 (m.c1.x - m.c0.x) (m.c1.y - m.c0.y)
  have hs := side_mul_sin_atan2 (m.c1.x - m.c0.x) (m.c1.y - m.c0.y)
  set S := Real.sqrt ((m.c1.x - m.c0.x) * (m.c1.x - m.c0.x)
    + (m.c1.y - m.c0.y) * (m.c1.y - m.c0.y)) with hS
  set h := atan2 (m.c1.y - m.c0.y) (m.c1.x - m.c0.x) with hh
  have e1 := shift_cos_first (s.mTheta - h)
  have e2 := shift_sin_first (s.mTheta - h)
  have e3 := shift_sin_second (s.mTheta - h)
  have e4 := shift_cos_second (s.mTheta - h)
  have ec : S * Real.cos (s.mTheta - h) =
      (m.c1.x - m.c0.x) * Real.cos s.mTheta + (m.c1.y - m.c0.y) * Real.sin s.mTheta := by
    rw [Real.cos_sub]; linear_combination Real.cos s.mTheta * hc + Real.sin s.mTheta * hs
  have es : S * Real.sin (s.mTheta - h) =
      (m.c1.x - m.c0.x) * Real.sin s.mTheta - (m.c1.y - m.c0.y) * Real.cos s.mTheta := by
    rw [Real.sin_sub]; linear_combination Real.sin s.mTheta * hc - Real.cos s.mTheta * hs
  refine ⟨?_, ?_, rfl, rfl⟩
  · simp only [translate]
    rw [← hS, ← hh]
    congr 1
    split_ifs
    · linear_combination (S / 2) * e1 + ec / 2 + es / 2
    · linear_combination (-S / 2) * e3 + ec / 2 + es / 2
  · simp only [translate]
    rw [← hS, ← hh]
    congr 1
    split_ifs
    · linear_combination (-S / 2) * e2 - ec / 2 + es / 2
    · linear_combination (S / 2) * e4 - ec / 2 + es / 2

/-! ## The frame pipeline: auxiliary facts -/

theorem lastCorner_nil (id : ℤ) : lastCorner id [] = none := rfl

theorem lastCorner_concat (id : ℤ) (ms : List Detection) (m : Detection) :
    lastCorner id (ms ++ [m]) = if m.id = id then some m.c0 else lastCorner id ms := by
  unfold lastCorner
  by_cases h : m.id = id
  · simp [List.filter_append, h]
  · simp [List.filter_append, h]

theorem referencePx_concat (id : ℤ) (ms : List Detection) (m : Detection) (p : ℤ × ℤ) :
    referencePx id (ms ++ [m]) p =
      if m.id = id then (toInt m.c0.x, toInt m.c0.y) else referencePx id ms p := by
  unfold referencePx
  rw [lastCorner_concat]
  by_cases h : m.id = id <;> simp [h]

/-- What the `foreach` loop does to the calibration members. -/
theorem foldl_processMarker_calibration (s : State) (ms : List Detection) :
    (ms.foldl processMarker s).mOriginPx = referencePx 0 ms s.mOriginPx ∧
    (ms.foldl processMarker s).mXAxisPx = referencePx 1 ms s.mXAxisPx ∧
    (ms.foldl processMarker s).mWidthM = s.mWidthM ∧
    (ms.foldl processMarker s).mHeightM = s.mHeightM ∧
    (ms.foldl processMarker s).mPpm = s.mPpm ∧
    (ms.foldl processMarker s).mTheta = s.mTheta := by
  induction ms using List.reverseRecOn with
  | nil => simp [referencePx, lastCorner_nil]
  | append_singleton ms m ih =>
    obtain ⟨h1, h2, h3, h4, h5, h6⟩ := ih
    rw [List.foldl_append, referencePx_concat, referencePx_concat]
    simp only [List.foldl_cons, List.foldl_nil, processMarker]
    by_cases h0 : m.id = 0
    · have h01 : ¬ m.id = 1 := by omega
      simp [h0, h2, h3, h4, h5, h6]
    · by_cases h1' : m.id = 1
      · simp [h1', h1, h3, h4, h5, h6]
      · simp [h0, h1', h1, h2, h3, h4, h5, h6]

/-- One step of the loop: the ids in the registry afterwards. -/
theorem processMarker_contains (s : State) (m : Detection) (id : ℤ) :
    qmapContains (processMarker s m).mMarkers id = true ↔
      qmapContains s.mMarkers id = true ∨ (id ≠ 0 ∧ id ≠ 1 ∧ m.id = id) := by
  unfold processMarker
  by_cases h0 : m.id = 0
  · rw [if_pos h0]
    constructor
    · exact fun h => Or.inl h
    · rintro (h | ⟨a, _, e⟩)
      · exact h
      · exact absurd (e.symm.trans h0) a
  · rw [if_neg h0]
    by_cases h1 : m.id = 1
    · rw [if_pos h1]
      constructor
      · exact fun h => Or.inl h
      · rintro (h | ⟨_, b, e⟩)
        · exact h
        · exact absurd (e.symm.trans h1) b
    · rw [if_neg h1]
      simp only [qmapContains, qmapInsert]
      by_cases hid : id = m.id
      · rw [if_pos hid]
        subst hid
        simp [h0, h1]
      · rw [if_neg hid]
        constructor
        · exact fun h => Or.inl h
        · rintro (h | ⟨_, _, e⟩)
          · exact h
          · exact absurd e.symm hid

/-- What the `foreach` loop does to the registry: the ids it holds afterwards. -/
theorem foldl_processMarker_contains (s : State) (ms : List Detection) (id : ℤ) :
    qmapContains (ms.foldl processMarker s).mMarkers id = true ↔
      qmapContains s.mMarkers id = true ∨ (id ≠ 0 ∧ id ≠ 1 ∧ ∃ m ∈ ms, m.id = id) := by
  induction ms using List.reverseRecOn with
  | nil => simp
  | append_singleton ms m ih =>
    rw [List.foldl_append, List.foldl_cons, List.foldl_nil, processMarker_contains, ih]
    constructor
    · rintro ((h | ⟨a, b, m', hm', e⟩) | ⟨a, b, e⟩)
      · exact Or.inl h
      · exact Or.inr ⟨a, b, m', List.mem_append_left _ hm', e⟩
      · exact Or.inr ⟨a, b, m, List.mem_append_right _ (List.mem_singleton_self m), e⟩
    · rintro (h | ⟨a, b, m', hm', e⟩)
      · exact Or.inl (Or.inl h)
      · rcases List.mem_append.1 hm' with hm' | hm'
        · exact Or.inl (Or.inr ⟨a, b, m', hm', e⟩)
        · rw [List.mem_singleton] at hm'
          subst hm'
          exact Or.inr ⟨a, b, e⟩

theorem toInt_intCast (n : ℤ) : toInt (n : ℝ) = n := by
  unfold toInt
  split_ifs <;> simp

/-- `atan2` of a point given in polar form. -/
theorem atan2_polar (r t : ℝ) (hr : 0 < r) (ht : t ∈ Set.Ioc (-Real.pi) Real.pi) :
    atan2 (r * Real.sin t) (r * Real.cos t) = t := by
  unfold atan2
  have e : (⟨r * Real.cos t, r * Real.sin t⟩ : ℂ) =
      (r : ℂ) * (Complex.cos t + Complex.sin t * Complex.I) := by
    apply Complex.ext
    · simp [← Complex.ofReal_cos, ← Complex.ofReal_sin]
    · simp [← Complex.ofReal_cos, ← Complex.ofReal_sin]
  rw [e]
  exact Complex.arg_mul_cos_add_sin_mul_I hr ht

theorem atan2_zero_of_nonneg (x : ℝ) (hx : 0 ≤ x) : atan2 0 x = 0 := by
  unfold atan2
  have e : (⟨x, 0⟩ : ℂ) = (x : ℂ) := by apply Complex.ext <;> simp
  rw [e]
  exact Complex.arg_ofReal_of_nonneg hx

theorem atan2_pos_zero (y : ℝ) (hy : 0 < y) : atan2 y 0 = Real.pi / 2 := by
  unfold atan2
  exact Complex.arg_eq_pi_div_two_iff.2 ⟨rfl, hy⟩

theorem atan2_diag (a : ℝ) (ha : 0 < a) : atan2 a a = Real.pi / 4 := by
  have h := atan2_polar (a * Real.sqrt 2) (Real.pi / 4) (by positivity)
    ⟨by linarith [Real.pi_pos], by linarith [Real.pi_pos]⟩
  have e : a * Real.sqrt 2 * (Real.sqrt 2 / 2) = a := by
    linear_combination (a / 2) * sqrt_two_mul_self
  rw [Real.sin_pi_div_four, Real.cos_pi_div_four, e] at h
  exact h

theorem referencePx_absent (id : ℤ) (ms : List Detection) (p : ℤ × ℤ)
    (h : ∀ m ∈ ms, m.id ≠ id) : referencePx id ms p = p := by
  have e : ms.filter (fun m => decide (m.id = id)) = [] := by
    rw [List.filter_eq_nil_iff]
    intro m hm
    simpa using h m hm
  simp [referencePx, lastCorner, e]

theorem processMarkers_fields (s : State) (ms : List Detection) :
    (processMarkers s ms).mOriginPx = referencePx 0 ms s.mOriginPx ∧
    (processMarkers s ms).mXAxisPx = referencePx 1 ms s.mXAxisPx ∧
    (processMarkers s ms).mWidthM = s.mWidthM ∧
    (processMarkers s ms).mHeightM = s.mHeightM := by
  obtain ⟨h1, h2, h3, h4, -, -⟩ :=
    foldl_processMarker_calibration { s with mMarkers := qmapClear } ms
  exact ⟨h1, h2, h3, h4⟩

theorem processMarkers_derived (s : State) (ms : List Detection) :
    (processMarkers s ms).mPpm =
      Real.sqrt ((((processMarkers s ms).mXAxisPx.1 - (processMarkers s ms).mOriginPx.1 : ℤ) : ℝ) ^ 2
        + (((processMarkers s ms).mXAxisPx.2 - (processMarkers s ms).mOriginPx.2 : ℤ) : ℝ) ^ 2)
        / (processMarkers s ms).mWidthM ∧
    (processMarkers s ms).mTheta =
      -atan2 (((processMarkers s ms).mXAxisPx.2 - (processMarkers s ms).mOriginPx.2 : ℤ) : ℝ)
        (((processMarkers s ms).mXAxisPx.1 - (processMarkers s ms).mOriginPx.1 : ℤ) : ℝ) := by
  constructor
  · simp only [processMarkers]
    congr 2
    push_cast
    ring
  · simp only [processMarkers]

theorem sqrt_diag : Real.sqrt (20000 : ℝ) = 100 * Real.sqrt 2 := by
  rw [show (20000 : ℝ) = 100 ^ 2 * 2 by norm_num,
    Real.sqrt_mul (by positivity), Real.sqrt_sq (by norm_num)]

/-- Claim C3, the calibration postcondition of `processMarkers`. For every prior state
and detection list, afterwards `mOriginPx` is the truncated first corner of the last
id-0 detection if there is one and its previous value otherwise, `mXAxisPx` likewise for
id 1, `mPpm` is the length of the vector `mXAxisPx - mOriginPx` divided by `mWidthM`, and
`mTheta` is `-atan2 (dy, dx)` of that vector, all taken from the resulting values.
On a freshly constructed arena (origin `(500, 500)`, axis `(600, 600)`, width `4`) a frame
without reference markers gives `mPpm = 25 * sqrt 2` and `mTheta = -π / 4`. -/
theorem processMarkers_calibration (s : State) (markers : List Detection)
    (u : State) (frame : List Detection) (hframe : ∀ m ∈ frame, m.id ≠ 0 ∧ m.id ≠ 1) :
    ((processMarkers s markers).mOriginPx = referencePx 0 markers s.mOriginPx ∧
      (processMarkers s markers).mXAxisPx = referencePx 1 markers s.mXAxisPx ∧
      (processMarkers s markers).mPpm =
        Real.sqrt
          ((((processMarkers s markers).mXAxisPx.1 - (processMarkers s markers).mOriginPx.1 : ℤ) : ℝ) ^ 2
          + (((processMarkers s markers).mXAxisPx.2 - (processMarkers s markers).mOriginPx.2 : ℤ) : ℝ) ^ 2)
          / s.mWidthM ∧
      (processMarkers s markers).mTheta =
        -atan2
          (((processMarkers s markers).mXAxisPx.2 - (processMarkers s markers).mOriginPx.2 : ℤ) : ℝ)
          (((processMarkers s markers).mXAxisPx.1 - (processMarkers s markers).mOriginPx.1 : ℤ) : ℝ)) ∧
    ((processMarkers (Arena u) frame).mOriginPx = (500, 500) ∧
      (processMarkers (Arena u) frame).mXAxisPx = (600, 600) ∧
      (processMarkers (Arena u) frame).mPpm = 25 * Real.sqrt 2 ∧
      (processMarkers (Arena u) frame).mTheta = -(Real.pi / 4)) := by
  obtain ⟨f1, f2, f3, -⟩ := processMarkers_fields s markers
  obtain ⟨d1, d2⟩ := processMarkers_derived s markers
  refine ⟨⟨f1, f2, ?_, d2⟩, ?_⟩
  · rw [← f3]; exact d1
  · obtain ⟨g1, g2, g3, -⟩ := processMarkers_fields (Arena u) frame
    obtain ⟨e1, e2⟩ := processMarkers_derived (Arena u) frame
    rw [referencePx_absent 0 frame _ (fun m hm => (hframe m hm).1)] at g1
    rw [referencePx_absent 1 frame _ (fun m hm => (hframe m hm).2)] at g2
    have o : (Arena u).mOriginPx = (500, 500) := rfl
    have a : (Arena u).mXAxisPx = (600, 600) := rfl
    have w : (Arena u).mWidthM = 4 := rfl
    rw [o] at g1; rw [a] at g2; rw [w] at g3
    refine ⟨g1, g2, ?_, ?_⟩
    · rw [e1, g1, g2, g3]
      norm_num
      rw [sqrt_diag]; ring
    · rw [e2, g1, g2]
      norm_num
      exact atan2_diag 100 (by norm_num)

/-- Witness of `processMarkers_calibration`: the tilted frame as the detection list, and
a frame holding only the tracked marker 5 on a fresh arena. -/
theorem processMarkers_calibration_witness :
    (∀ m ∈ [trackedMarker], m.id ≠ 0 ∧ m.id ≠ 1) ∧
    (processMarkers blank tiltedFrame).mOriginPx = referencePx 0 tiltedFrame blank.mOriginPx ∧
    (processMarkers (Arena blank) [trackedMarker]).mPpm = 25 * Real.sqrt 2 ∧
    (processMarkers (Arena blank) [trackedMarker]).mTheta = -(Real.pi / 4) :=
  ⟨by simp [trackedMarker],
    (processMarkers_calibration blank tiltedFrame blank [trackedMarker]
      (by simp [trackedMarker])).1.1,
    (processMarkers_calibration blank tiltedFrame blank [trackedMarker]
      (by simp [trackedMarker])).2.2.2.1,
    (processMarkers_calibration blank tiltedFrame blank [trackedMarker]
      (by simp [trackedMarker])).2.2.2.2⟩

theorem getPosition_fst (s : State) (id : ℤ) (mk : Marker) :
    (getPosition s id mk).1 = qmapContains s.mMarkers id := by
  unfold getPosition
  by_cases h : qmapContains s.mMarkers id = true
  · simp [h]
  · simp [h]

theorem processMarkers_contains (s : State) (ms : List Detection) (id : ℤ) :
    qmapContains (processMarkers s ms).mMarkers id = true ↔
      (id ≠ 0 ∧ id ≠ 1 ∧ ∃ m ∈ ms, m.id = id) := by
  have h := foldl_processMarker_contains { s with mMarkers := qmapClear } ms id
  have e : (processMarkers s ms).mMarkers =
      (ms.foldl processMarker { s with mMarkers := qmapClear }).mMarkers := rfl
  rw [e, h]
  simp [qmapContains, qmapClear]

/-- Claim C4, registry non-persistence. After `processMarkers s markers`, `getPosition id`
returns `true` exactly when `id` is neither `0` nor `1` and some detection of `markers`
has this id, whatever the registry held before. In particular, after a frame with ids
`5, 7` the lookup of `5` succeeds and that of `9` fails, and after a following frame with
only id `9` the lookup of `5` fails. -/
theorem registry_holds_current_frame (s : State) (markers : List Detection) (id : ℤ)
    (marker : Marker) (c5 d5 c7 d7 c9 d9 : Point2f) :
    ((getPosition (processMarkers s markers) id marker).1 = true ↔
      (id ≠ 0 ∧ id ≠ 1 ∧ ∃ m ∈ markers, m.id = id)) ∧
    (getPosition (processMarkers s [⟨5, c5, d5⟩, ⟨7, c7, d7⟩]) 5 marker).1 = true ∧
    (getPosition (processMarkers s [⟨5, c5, d5⟩, ⟨7, c7, d7⟩]) 9 marker).1 = false ∧
    (getPosition (processMarkers (processMarkers s [⟨5, c5, d5⟩, ⟨7, c7, d7⟩]) [⟨9, c9, d9⟩])
      5 marker).1 = false := by
  refine ⟨?_, ?_, ?_, ?_⟩
  · rw [getPosition_fst, processMarkers_contains]
  · rw [getPosition_fst, processMarkers_contains]; simp
  · rw [getPosition_fst, ← Bool.not_eq_true, processMarkers_contains]; simp
  · rw [getPosition_fst, ← Bool.not_eq_true, processMarkers_contains]; simp

/-- `arenaCoordinate` undoes `cameraCoordinateF` when the scale is not zero. -/
theorem arenaCoordinate_cameraCoordinateF (s : State) (x y : ℝ) (h : s.mPpm ≠ 0) :
    arenaCoordinate s ⟨(cameraCoordinateF s x y).1, (cameraCoordinateF s x y).2⟩ = (x, y) := by
  have hcs := Real.cos_sq_add_sin_sq s.mTheta
  simp only [arenaCoordinate, cameraCoordinateF]
  refine Prod.ext ?_ ?_
  · simp only
    rw [div_eq_iff h]
    linear_combination (x * s.mPpm) * hcs
  · simp only
    rw [div_eq_iff h]
    linear_combination (y * s.mPpm) * hcs

/-- `cameraCoordinateF` undoes `arenaCoordinate` when the scale is not zero. -/
theorem cameraCoordinateF_arenaCoordinate (s : State) (p : Point2f) (h : s.mPpm ≠ 0) :
    cameraCoordinateF s (arenaCoordinate s p).1 (arenaCoordinate s p).2 = (p.x, p.y) := by
  have hcs := Real.cos_sq_add_sin_sq s.mTheta
  simp only [arenaCoordinate, cameraCoordinateF]
  refine Prod.ext ?_ ?_
  · simp only
    rw [div_mul_cancel₀ _ h, div_mul_cancel₀ _ h]
    linear_combination (p.x - s.mOriginPx.1) * hcs
  · simp only
    rw [div_mul_cancel₀ _ h, div_mul_cancel₀ _ h]
    linear_combination (-(s.mOriginPx.2 - p.y)) * hcs

/-- How far `translate` is from the marker centre: the reported position is the arena
position of the centre plus `sin mTheta / mPpm` times `(dx + dy, dx - dy)`, where
`(dx, dy) = c1 - c0`. -/
theorem translate_centre_defect (s : State) (m : Detection) :
    (translate s m).x = (arenaCoordinate s (markerCentre m)).1
      + ((m.c1.x - m.c0.x) + (m.c1.y - m.c0.y)) * Real.sin s.mTheta / s.mPpm ∧
    (translate s m).y = (arenaCoordinate s (markerCentre m)).2
      + ((m.c1.x - m.c0.x) - (m.c1.y - m.c0.y)) * Real.sin s.mTheta / s.mPpm := by
  obtain ⟨hx, hy, -, -⟩ := translate_closed s m
  rw [hx, hy]
  simp only [arenaCoordinate, markerCentre]
  constructor
  · rw [← add_div]; congr 1; ring
  · rw [← add_div]; congr 1; ring

/-- With an untilted calibration (`sin mTheta = 0`) `translate` returns the centre. -/
theorem translate_centre_untilted (s : State) (m : Detection) (h : Real.sin s.mTheta = 0) :
    ((translate s m).x, (translate s m).y) = arenaCoordinate s (markerCentre m) := by
  obtain ⟨hx, hy⟩ := translate_centre_defect s m
  rw [hx, hy, h]
  simp

/-- Claim C2, round trip. For a calibration with `mPpm > 0` and an arena point `(x, y)`,
let `p` be the real pixel point `cameraCoordinate` computes before its conversion to
`int`. `translate` of a marker whose two corners both equal `p` returns the position
`(x, y)`. -/
theorem translate_cameraCoordinate_roundtrip (s : State) (x y : ℝ) (id : ℤ)
    (hppm : 0 < s.mPpm) :
    (translate s ⟨id, ⟨(cameraCoordinateF s x y).1, (cameraCoordinateF s x y).2⟩,
        ⟨(cameraCoordinateF s x y).1, (cameraCoordinateF s x y).2⟩⟩).x = x ∧
    (translate s ⟨id, ⟨(cameraCoordinateF s x y).1, (cameraCoordinateF s x y).2⟩,
        ⟨(cameraCoordinateF s x y).1, (cameraCoordinateF s x y).2⟩⟩).y = y := by
  obtain ⟨hx, hy, -, -⟩ := translate_closed s
    ⟨id, ⟨(cameraCoordinateF s x y).1, (cameraCoordinateF s x y).2⟩,
      ⟨(cameraCoordinateF s x y).1, (cameraCoordinateF s x y).2⟩⟩
  have hcs := Real.cos_sq_add_sin_sq s.mTheta
  have h := ne_of_gt hppm
  rw [hx, hy]
  simp only [cameraCoordinateF]
  constructor
  · rw [div_eq_iff h]
    linear_combination (x * s.mPpm) * hcs
  · rw [div_eq_iff h]
    linear_combination (y * s.mPpm) * hcs

/-- Witness of `translate_cameraCoordinate_roundtrip`: the level calibration, arena
point `(1, 2)`. -/
theorem translate_cameraCoordinate_roundtrip_witness :
    (0 : ℝ) < levelCalibration.mPpm ∧
    (translate levelCalibration
      ⟨5, ⟨(cameraCoordinateF levelCalibration 1 2).1, (cameraCoordinateF levelCalibration 1 2).2⟩,
        ⟨(cameraCoordinateF levelCalibration 1 2).1,
          (cameraCoordinateF levelCalibration 1 2).2⟩⟩).x = 1 ∧
    (translate levelCalibration
      ⟨5, ⟨(cameraCoordinateF levelCalibration 1 2).1, (cameraCoordinateF levelCalibration 1 2).2⟩,
        ⟨(cameraCoordinateF levelCalibration 1 2).1,
          (cameraCoordinateF levelCalibration 1 2).2⟩⟩).y = 2 :=
  ⟨by norm_num [levelCalibration],
    translate_cameraCoordinate_roundtrip levelCalibration 1 2 5 (by norm_num [levelCalibration])⟩

/-- The calibration left by `tiltedFrame` on a freshly constructed arena. -/
theorem tiltedFrame_calibration (u : State) :
    (processMarkers (Arena u) tiltedFrame).mOriginPx = (100, 100) ∧
    (processMarkers (Arena u) tiltedFrame).mPpm = 100 ∧
    (processMarkers (Arena u) tiltedFrame).mTheta = -(Real.pi / 2) := by
  obtain ⟨g1, g2, g3, -⟩ := processMarkers_fields (Arena u) tiltedFrame
  obtain ⟨e1, e2⟩ := processMarkers_derived (Arena u) tiltedFrame
  have o : referencePx 0 tiltedFrame (Arena u).mOriginPx = (100, 100) := by
    simp [referencePx, lastCorner, tiltedFrame, toInt]
  have a : referencePx 1 tiltedFrame (Arena u).mXAxisPx = (100, 500) := by
    simp [referencePx, lastCorner, tiltedFrame, toInt]
  have w : (Arena u).mWidthM = 4 := rfl
  rw [o] at g1; rw [a] at g2; rw [w] at g3
  refine ⟨g1, ?_, ?_⟩
  · rw [e1, g1, g2, g3]
    norm_num
    rw [show (160000 : ℝ) = 400 ^ 2 by norm_num, Real.sqrt_sq (by norm_num)]
    norm_num
  · rw [e2, g1, g2]
    norm_num
    exact atan2_pos_zero 400 (by norm_num)

/-- Claim C1 at a tilted calibration. The frame `tiltedFrame` (reference marker 0 at pixel
`(100, 100)`, reference marker 1 at `(100, 500)`) leaves `mTheta = -π / 2` and 100 pixels
per metre. For the marker with corners `(200, 200)` and `(220, 200)`, whose centre is the
pixel `(210, 210)` with arena coordinates `(1.1, 1.1)`, `translate` returns the position
`(0.9, 0.9)`: the centre shift is applied in the opposite direction. -/
theorem translate_misses_centre_when_tilted (u : State) :
    (processMarkers (Arena u) tiltedFrame).mTheta = -(Real.pi / 2) ∧
    ((translate (processMarkers (Arena u) tiltedFrame) trackedMarker).x,
      (translate (processMarkers (Arena u) tiltedFrame) trackedMarker).y) = (0.9, 0.9) ∧
    arenaCoordinate (processMarkers (Arena u) tiltedFrame) (markerCentre trackedMarker)
      = (1.1, 1.1) := by
  obtain ⟨ho, hp, ht⟩ := tiltedFrame_calibration u
  obtain ⟨hx, hy, -, -⟩ := translate_closed (processMarkers (Arena u) tiltedFrame) trackedMarker
  refine ⟨ht, ?_, ?_⟩
  · rw [hx, hy, ho, hp, ht]
    simp only [trackedMarker, Real.cos_neg, Real.sin_neg, Real.cos_pi_div_two,
      Real.sin_pi_div_two]
    norm_num
  · simp only [arenaCoordinate, markerCentre, trackedMarker, ho, hp, ht, Real.cos_neg,
      Real.sin_neg, Real.cos_pi_div_two, Real.sin_pi_div_two]
    norm_num

/-- The calibration left by `wideFrame` on a freshly constructed arena. -/
theorem wideFrame_calibration (u : State) :
    (processMarkers (Arena u) wideFrame).mOriginPx = (100, 400) ∧
    (processMarkers (Arena u) wideFrame).mWidthM = 4 ∧
    (processMarkers (Arena u) wideFrame).mPpm = 100 ∧
    (processMarkers (Arena u) wideFrame).mTheta = 0 := by
  obtain ⟨g1, g2, g3, -⟩ := processMarkers_fields (Arena u) wideFrame
  obtain ⟨e1, e2⟩ := processMarkers_derived (Arena u) wideFrame
  have o : referencePx 0 wideFrame (Arena u).mOriginPx = (100, 400) := by
    simp [referencePx, lastCorner, wideFrame, toInt]
  have a : referencePx 1 wideFrame (Arena u).mXAxisPx = (500, 400) := by
    simp [referencePx, lastCorner, wideFrame, toInt]
  have w : (Arena u).mWidthM = 4 := rfl
  rw [o] at g1; rw [a] at g2; rw [w] at g3
  refine ⟨g1, g3, ?_, ?_⟩
  · rw [e1, g1, g2, g3]
    norm_num
    rw [show (160000 : ℝ) = 400 ^ 2 by norm_num, Real.sqrt_sq (by norm_num)]
    norm_num
  · rw [e2, g1, g2]
    norm_num
    exact atan2_zero_of_nonneg 400 (by norm_num)

/-- The calibration that holds after `narrowFrame`, whatever held before. -/
theorem narrowFrame_calibration (s : State) (hw : s.mWidthM = 4) :
    (processMarkers s narrowFrame).mOriginPx = (100, 400) ∧
    (processMarkers s narrowFrame).mPpm = 50 ∧
    (processMarkers s narrowFrame).mTheta = 0 := by
  obtain ⟨g1, g2, g3, -⟩ := processMarkers_fields s narrowFrame
  obtain ⟨e1, e2⟩ := processMarkers_derived s narrowFrame
  have o : referencePx 0 narrowFrame s.mOriginPx = (100, 400) := by
    simp [referencePx, lastCorner, narrowFrame, laterMarker, toInt]
  have a : referencePx 1 narrowFrame s.mXAxisPx = (300, 400) := by
    simp [referencePx, lastCorner, narrowFrame, laterMarker, toInt]
  rw [o] at g1; rw [a] at g2; rw [hw] at g3
  refine ⟨g1, ?_, ?_⟩
  · rw [e1, g1, g2, g3]
    norm_num
    rw [show (40000 : ℝ) = 200 ^ 2 by norm_num, Real.sqrt_sq (by norm_num)]
    norm_num
  · rw [e2, g1, g2]
    norm_num
    exact atan2_zero_of_nonneg 200 (by norm_num)

/-- The marker that `processMarkers` stores for `laterMarker` of `narrowFrame`: it is
translated inside the loop, with the origin already updated and with the `mPpm` and
`mTheta` of the call's prior state. -/
theorem narrowFrame_stored (s : State) (marker : Marker) :
    getPosition (processMarkers s narrowFrame) 5 marker =
      (true, translate
        { s with
          mOriginPx := (100, 400)
          mXAxisPx := (300, 400)
          mMarkers := qmapClear } laterMarker) := by
  have e : (processMarkers s narrowFrame).mMarkers 5 =
      some (translate
        { s with
          mOriginPx := (100, 400)
          mXAxisPx := (300, 400)
          mMarkers := qmapClear } laterMarker) := by
    simp [processMarkers, narrowFrame, processMarker, laterMarker, qmapInsert, toInt]
  simp [getPosition, qmapContains, e]

/-- The position `translate` gives `laterMarker` under an untilted calibration with
origin pixel `(100, 400)`. -/
theorem laterMarker_translate (t : State) (h1 : t.mOriginPx = (100, 400))
    (h3 : t.mTheta = 0) :
    (translate t laterMarker).x = 110 / t.mPpm ∧ (translate t laterMarker).y = 90 / t.mPpm := by
  obtain ⟨hx, hy, -, -⟩ := translate_closed t laterMarker
  rw [hx, hy, h1, h3]
  simp only [laterMarker, Real.cos_zero, Real.sin_zero]
  norm_num

/-- Claim C5 on two consecutive frames. After `wideFrame` (100 pixels per metre) the
frame `narrowFrame` holds reference markers 0 and 1 and the marker `laterMarker` with id 5.
The position stored for id 5 is `(1.1, 0.9)`, computed with the 100 pixels per metre of
the previous frame, whereas `translate` under the calibration that holds after the call
(50 pixels per metre) gives `(2.2, 1.8)`. -/
theorem stored_position_uses_stale_calibration (u : State) (marker : Marker) :
    (getPosition (processMarkers (processMarkers (Arena u) wideFrame) narrowFrame) 5 marker).1
      = true ∧
    (getPosition (processMarkers (processMarkers (Arena u) wideFrame) narrowFrame) 5 marker).2.x
      = 1.1 ∧
    (getPosition (processMarkers (processMarkers (Arena u) wideFrame) narrowFrame) 5 marker).2.y
      = 0.9 ∧
    (translate (processMarkers (processMarkers (Arena u) wideFrame) narrowFrame) laterMarker).x
      = 2.2 ∧
    (translate (processMarkers (processMarkers (Arena u) wideFrame) narrowFrame) laterMarker).y
      = 1.8 := by
  obtain ⟨-, hw, hp, ht⟩ := wideFrame_calibration u
  obtain ⟨ho2, hp2, ht2⟩ := narrowFrame_calibration (processMarkers (Arena u) wideFrame) hw
  rw [narrowFrame_stored]
  obtain ⟨hx, hy⟩ := laterMarker_translate
    { processMarkers (Arena u) wideFrame with
      mOriginPx := (100, 400)
      mXAxisPx := (300, 400)
      mMarkers := qmapClear } rfl ht
  obtain ⟨kx, ky⟩ := laterMarker_translate
    (processMarkers (processMarkers (Arena u) wideFrame) narrowFrame) ho2 ht2
  refine ⟨rfl, ?_, ?_, ?_, ?_⟩
  · rw [hx]; simp only [hp]; norm_num
  · rw [hy]; simp only [hp]; norm_num
  · rw [kx, hp2]; norm_num
  · rw [ky, hp2]; norm_num

/-! ## The randomizer: the layout claims -/

/-- In the branch that puts the target into quadrant 2, obstacle 2 stays inside
quadrant 3, `[2.25, 3.8] × [1.0, 1.8]`, for all draws. -/
theorem obstacle2_in_quadrant3 (rand : ℕ → ℕ) (s : State) (hc : rand 10 % 2 ≠ 0) :
    rectInside (randomize rand s).mObstacles2 2.25 3.8 1.0 1.8 := by
  obtain ⟨-, -, ⟨e1, e2⟩, ⟨-, f2⟩, h⟩ := randomize_target_obstacle2 rand s
  rw [if_pos hc] at h
  exact ⟨e1, e2, h.2.1, f2⟩

/-- In the branch that puts the target into quadrant 3, obstacle 2 stays inside quadrant 2
except possibly at its lower edge, where it stays above `0.18`. -/
theorem obstacle2_near_quadrant2 (rand : ℕ → ℕ) (s : State) (hc : ¬ rand 10 % 2 ≠ 0) :
    rectInside (randomize rand s).mObstacles2 2.25 3.8 0.18 1.0 := by
  obtain ⟨-, -, ⟨e1, e2⟩, ⟨f1, -⟩, h⟩ := randomize_target_obstacle2 rand s
  rw [if_neg hc] at h
  exact ⟨e1, e2, f1, h.2.1⟩

/-- The target disk stays inside its quadrant on the left, on the right and below, for
all draws: `2.25 ≤ x - 0.09`, `x + 0.09 ≤ 3.8`, and `minY ≤ y - 0.09` with `minY = 0.2`
in quadrant 2 and `minY = 1.0` in quadrant 3. -/
theorem target_disk_three_sides (rand : ℕ → ℕ) (s : State) :
    2.25 ≤ (randomize rand s).mTargetLocation.x - 0.09 ∧
    (randomize rand s).mTargetLocation.x + 0.09 ≤ 3.8 ∧
    (if rand 10 % 2 ≠ 0 then (0.2 : ℚ) else 1.0) ≤ (randomize rand s).mTargetLocation.y - 0.09 := by
  obtain ⟨⟨c1, c2⟩, ⟨d1, -⟩, -, -, h⟩ := randomize_target_obstacle2 rand s
  refine ⟨by linarith, by linarith, ?_⟩
  by_cases hc : rand 10 % 2 ≠ 0
  · rw [if_pos hc]; linarith
  · rw [if_neg hc] at h ⊢; linarith [h.1]

/-- Claim C6 at the draws `drawsUprightMajor`. The coin puts the target into quadrant 3, so
obstacle 2 is assigned quadrant 2, `[2.25, 3.8] × [0.2, 1.0]`; it is the major obstacle
standing upright (height `0.41`), and the `min` clamp against the target sets its upper
edge to `0.59`, so its rectangle reaches down to `0.18` and is not inside the quadrant. -/
theorem obstacle2_leaves_quadrant (s : State) :
    drawsUprightMajor 10 % 2 = 0 ∧
    (randomize drawsUprightMajor s).mTargetLocation.y = 1.18 ∧
    (randomize drawsUprightMajor s).mObstacles2.y = 0.59 ∧
    (randomize drawsUprightMajor s).mObstacles2.height = 0.41 ∧
    ¬ rectInside (randomize drawsUprightMajor s).mObstacles2 2.25 3.8 0.2 1.0 := by
  have h : (randomize drawsUprightMajor s).mTargetLocation.y = 1.18 ∧
      (randomize drawsUprightMajor s).mObstacles2.y = 0.59 ∧
      (randomize drawsUprightMajor s).mObstacles2.height = 0.41 := by
    simp only [randomize, drawsUprightMajor, targetQuadrant3, resize, place, quadrantBounds,
      quadrantBoundsTable, List.getD_cons_zero, List.getD_cons_succ, TARGET_DIAMETER,
      min_eq, max_eq]
    norm_num
  refine ⟨by decide, h.1, h.2.1, h.2.2, ?_⟩
  unfold rectInside
  rw [h.2.1, h.2.2]
  norm_num

/-- Claim C7 at the draws `drawsHighTarget`. The coin puts the target into quadrant 2,
`[2.25, 3.8] × [0.2, 1.0]`, and the target's centre is placed at `y = 0.9938`, so the disk
of radius `0.09` around it reaches `1.0838` and is not inside the quadrant. -/
theorem target_disk_leaves_quadrant (s : State) :
    drawsHighTarget 10 % 2 ≠ 0 ∧
    (randomize drawsHighTarget s).mTargetLocation.y = 0.9938 ∧
    ¬ diskInside (randomize drawsHighTarget s).mTargetLocation (TARGET_DIAMETER / 2)
      2.25 3.8 0.2 1.0 := by
  have h : (randomize drawsHighTarget s).mTargetLocation.y = 0.9938 := by
    simp only [randomize, drawsHighTarget, targetQuadrant2, resize, place, quadrantBounds,
      quadrantBoundsTable, List.getD_cons_zero, List.getD_cons_succ, TARGET_DIAMETER,
      min_eq, max_eq]
    norm_num
  refine ⟨by decide, h, ?_⟩
  unfold diskInside
  rw [h]
  norm_num [TARGET_DIAMETER]

/-- Claim C8. For every sequence of draws and every size and orientation outcome, after
`randomize` the rectangle of obstacle 0 lies inside `[1.4, 2.25] × [1.0, 1.8]` and that of
obstacle 1 inside `[1.4, 2.25] × [0.2, 1.0]`. -/
theorem obstacles01_in_quadrant (rand : ℕ → ℕ) (s : State) :
    rectInside (randomize rand s).mObstacles0 1.4 2.25 1.0 1.8 ∧
    rectInside (randomize rand s).mObstacles1 1.4 2.25 0.2 1.0 :=
  randomize_obstacles01 rand s

/-- Claim C9. For every sequence of draws, after `randomize` the three obstacle rectangles
and the target disk of radius `0.09` lie inside `[0, 4] × [0, 2]`, the arena rectangle of
the constructor's width `4` and height `2`, which `randomize` leaves unchanged. -/
theorem randomize_inside_arena (rand : ℕ → ℕ) (s u : State) :
    (rectInside (randomize rand s).mObstacles0 0 4 0 2 ∧
      rectInside (randomize rand s).mObstacles1 0 4 0 2 ∧
      rectInside (randomize rand s).mObstacles2 0 4 0 2 ∧
      diskInside (randomize rand s).mTargetLocation 0.09 0 4 0 2) ∧
    ((randomize rand (Arena u)).mWidthM = 4 ∧ (randomize rand (Arena u)).mHeightM = 2) := by
  obtain ⟨⟨a1, a2, a3, a4⟩, ⟨b1, b2, b3, b4⟩⟩ := randomize_obstacles01 rand s
  obtain ⟨⟨c1, c2⟩, ⟨d1, d2⟩, ⟨e1, e2⟩, ⟨f1, f2⟩, -⟩ := randomize_target_obstacle2 rand s
  refine ⟨⟨⟨?_, ?_, ?_, ?_⟩, ⟨?_, ?_, ?_, ?_⟩, ⟨?_, ?_, ?_, ?_⟩, ⟨?_, ?_, ?_, ?_⟩⟩, rfl, rfl⟩ <;>
    linarith

/-- Claim C10. For every sequence of draws, after `randomize` the y coordinates of
obstacle 2 and of the target differ by at least `0.5 + 0.18 / 2 = 0.59`: when the coin puts
the target into quadrant 2 (target y at most `1.0`, `max` clamp)
`obstacle2.y ≥ target.y + 0.59`, and when it puts the target into quadrant 3 (target y at
least `1.18`, `min` clamp) `obstacle2.y ≤ target.y - 0.59`. -/
theorem target_obstacle2_separation (rand : ℕ → ℕ) (s : State) :
    0.5 + TARGET_DIAMETER / 2 = 0.59 ∧
    (if rand 10 % 2 ≠ 0 then
      (randomize rand s).mTargetLocation.y ≤ 1.0 ∧
      (randomize rand s).mTargetLocation.y + 0.59 ≤ (randomize rand s).mObstacles2.y
    else
      1.18 ≤ (randomize rand s).mTargetLocation.y ∧
      (randomize rand s).mObstacles2.y ≤ (randomize rand s).mTargetLocation.y - 0.59) := by
  obtain ⟨-, -, -, -, h⟩ := randomize_target_obstacle2 rand s
  refine ⟨by norm_num [TARGET_DIAMETER], ?_⟩
  by_cases hc : rand 10 % 2 ≠ 0
  · rw [if_pos hc] at h ⊢
    exact ⟨h.1, h.2.2⟩
  · rw [if_neg hc] at h ⊢
    exact ⟨h.1, h.2.2⟩

/-! ## The randomizer: clearances, sizes and the start pose -/

/-- The target's x coordinate in the `if` branch is at least `0.5 + TARGET_DIAMETER`
to the right of the centre of obstacle 1. -/
theorem targetQuadrant2_clear (r0 r1 r2 r3 : ℕ) (o1 o2 : Obstacle) (t : Position ℚ)
    (ho1 : o1.x + o1.width / 2 ≤ 2.25) :
    o1.x + o1.width / 2 + 0.68 ≤ (targetQuadrant2 r0 r1 r2 r3 o1 o2 t).1.x := by
  obtain ⟨ex, -⟩ := targetQuadrant2_fst r0 r1 r2 r3 o1 o2 t
  have hM1 := max_ge_right (quadrantBounds 2 0) (o1.x + o1.width / 2 + 0.5)
  have hM2 := max_le_of (quadrantBounds 2 0) (o1.x + o1.width / 2 + 0.5) 2.75
    (by simp only [quadrantBounds, quadrantBoundsTable, List.getD_cons_zero,
      List.getD_cons_succ]; norm_num) (by linarith)
  have hx := step_bounds r0 (quadrantBounds 2 1 - 0.3 -
    max (quadrantBounds 2 0) (o1.x + o1.width / 2 + 0.5) - TARGET_DIAMETER)
    (max (quadrantBounds 2 0) (o1.x + o1.width / 2 + 0.5) + TARGET_DIAMETER)
  rw [← ex] at hx
  simp only [quadrantBounds, quadrantBoundsTable, List.getD_cons_zero, List.getD_cons_succ,
    TARGET_DIAMETER] at hM1 hM2 hx
  have hx2 := hx (by linarith)
  linarith [hx2.1]

/-- The target's x coordinate in the `else` branch is at least `0.5 + TARGET_DIAMETER`
to the right of the centre of obstacle 0. -/
theorem targetQuadrant3_clear (r0 r1 r2 r3 : ℕ) (o0 o2 : Obstacle) (t : Position ℚ)
    (ho0 : o0.x + o0.width / 2 ≤ 2.25) :
    o0.x + o0.width / 2 + 0.68 ≤ (targetQuadrant3 r0 r1 r2 r3 o0 o2 t).1.x := by
  obtain ⟨ex, -⟩ := targetQuadrant3_fst r0 r1 r2 r3 o0 o2 t
  have hM1 := max_ge_right (quadrantBounds 3 0) (o0.x + o0.width / 2 + 0.5)
  have hM2 := max_le_of (quadrantBounds 3 0) (o0.x + o0.width / 2 + 0.5) 2.75
    (by simp only [quadrantBounds, quadrantBoundsTable, List.getD_cons_zero,
      List.getD_cons_succ]; norm_num) (by linarith)
  have hx := step_bounds r0 (quadrantBounds 3 1 - 0.3 -
    max (quadrantBounds 3 0) (o0.x + o0.width / 2 + 0.5) - TARGET_DIAMETER)
    (max (quadrantBounds 3 0) (o0.x + o0.width / 2 + 0.5) + TARGET_DIAMETER)
  rw [← ex] at hx
  simp only [quadrantBounds, quadrantBoundsTable, List.getD_cons_zero, List.getD_cons_succ,
    TARGET_DIAMETER] at hM1 hM2 hx
  have hx2 := hx (by linarith)
  linarith [hx2.1]

/-- The sizes `randomize` gives the three obstacles, by the position of the major one. -/
theorem randomize_sizes (rand : ℕ → ℕ) (s : State) :
    (randomize rand s).mObstacles0.width =
        (resize (rand 2 % 3) 0 (rand 3) s.mObstacles0).width ∧
    (randomize rand s).mObstacles0.height =
        (resize (rand 2 % 3) 0 (rand 3) s.mObstacles0).height ∧
    (randomize rand s).mObstacles1.width =
        (resize (rand 2 % 3) 1 (rand 4) s.mObstacles1).width ∧
    (randomize rand s).mObstacles1.height =
        (resize (rand 2 % 3) 1 (rand 4) s.mObstacles1).height ∧
    (randomize rand s).mObstacles2.width =
        (resize (rand 2 % 3) 2 (rand 5) s.mObstacles2).width ∧
    (randomize rand s).mObstacles2.height =
        (resize (rand 2 % 3) 2 (rand 5) s.mObstacles2).height := by
  have hb := randomize_branch rand s
  have h2 : (randomize rand s).mObstacles2 =
      ((randomize rand s).mTargetLocation, (randomize rand s).mObstacles2).2 := rfl
  refine ⟨rfl, rfl, rfl, rfl, ?_, ?_⟩
  · rw [h2, hb]
    by_cases hc : rand 10 % 2 ≠ 0
    · rw [if_pos hc]; exact (targetQuadrant2_snd _ _ _ _ _ _ _).1
    · rw [if_neg hc]; exact (targetQuadrant3_snd _ _ _ _ _ _ _).1
  · rw [h2, hb]
    by_cases hc : rand 10 % 2 ≠ 0
    · rw [if_pos hc]; exact (targetQuadrant2_snd _ _ _ _ _ _ _).2.1
    · rw [if_neg hc]; exact (targetQuadrant3_snd _ _ _ _ _ _ _).2.1

/-- After `randomize` the target lies at least `0.68` to the right of the centre of the
obstacle bordering its quadrant. -/
theorem randomize_target_clear (rand : ℕ → ℕ) (s : State) :
    (obstacleCentre (neighbour rand (randomize rand s))).1 + 0.68 ≤
      (randomize rand s).mTargetLocation.x := by
  have hb := randomize_branch rand s
  have ht : (randomize rand s).mTargetLocation =
      ((randomize rand s).mTargetLocation, (randomize rand s).mObstacles2).1 := rfl
  obtain ⟨⟨-, a2, -, -⟩, ⟨-, b2, -, -⟩⟩ := randomize_obstacles01 rand s
  obtain ⟨w0, -, w1, -, -, -⟩ := randomize_sizes rand s
  have r0 := resize_range (rand 2 % 3) 0 (rand 3) s.mObstacles0
  have r1 := resize_range (rand 2 % 3) 1 (rand 4) s.mObstacles1
  rw [← w0] at r0; rw [← w1] at r1
  unfold neighbour obstacleCentre
  by_cases hc : rand 10 % 2 ≠ 0
  · rw [if_pos hc] at hb ⊢
    rw [ht, hb]
    exact targetQuadrant2_clear _ _ _ _ _ _ _ (by linarith [r1.1.1])
  · rw [if_neg hc] at hb ⊢
    rw [ht, hb]
    exact targetQuadrant3_clear _ _ _ _ _ _ _ (by linarith [r0.1.1])

/-- Claim C11, as amended. For every sequence of draws, after `randomize` the Euclidean
distance between the target centre and the centre `(x + width / 2, y - height / 2)` of the
obstacle bordering the target's quadrant (obstacle 1 for quadrant 2, obstacle 0 for
quadrant 3) is at least `0.5 + TARGET_DIAMETER = 0.68`; so it is at least `0.5` plus half of
that obstacle's width whenever the width is not `0.41`, that is for the widths `0.32`,
`0.23` and `0.13`. -/
theorem target_neighbour_distance (rand : ℕ → ℕ) (s : State) :
    ((0.5 + TARGET_DIAMETER : ℚ) : ℝ) ≤
      distance ((randomize rand s).mTargetLocation.x, (randomize rand s).mTargetLocation.y)
        (obstacleCentre (neighbour rand (randomize rand s))) ∧
    ((neighbour rand (randomize rand s)).width = 0.41 ∨
      ((0.5 + (neighbour rand (randomize rand s)).width / 2 : ℚ) : ℝ) ≤
        distance ((randomize rand s).mTargetLocation.x, (randomize rand s).mTargetLocation.y)
          (obstacleCentre (neighbour rand (randomize rand s)))) := by
  have hx := randomize_target_clear rand s
  have hsq : (0.68 : ℚ) ^ 2 ≤
      distSq ((randomize rand s).mTargetLocation.x, (randomize rand s).mTargetLocation.y)
        (obstacleCentre (neighbour rand (randomize rand s))) := by
    unfold distSq
    simp only
    nlinarith [sq_nonneg ((randomize rand s).mTargetLocation.y -
      (obstacleCentre (neighbour rand (randomize rand s))).2)]
  have hd : (0.68 : ℝ) ≤
      distance ((randomize rand s).mTargetLocation.x, (randomize rand s).mTargetLocation.y)
        (obstacleCentre (neighbour rand (randomize rand s))) := by
    unfold distance
    rw [Real.le_sqrt' (by norm_num)]
    have h : (((0.68 : ℚ) ^ 2 : ℚ) : ℝ) ≤
        ((distSq ((randomize rand s).mTargetLocation.x, (randomize rand s).mTargetLocation.y)
          (obstacleCentre (neighbour rand (randomize rand s))) : ℚ) : ℝ) := by
      exact_mod_cast hsq
    push_cast at h ⊢
    exact h
  constructor
  · have e : ((0.5 + TARGET_DIAMETER : ℚ) : ℝ) = 0.68 := by
      simp only [TARGET_DIAMETER]; norm_num
    rw [e]; exact hd
  · obtain ⟨w0, -, w1, -, -, -⟩ := randomize_sizes rand s
    have r0 := resize_dims (rand 2 % 3) 0 (rand 3) s.mObstacles0
    have r1 := resize_dims (rand 2 % 3) 1 (rand 4) s.mObstacles1
    have hw : (neighbour rand (randomize rand s)).width = 0.41 ∨
        (neighbour rand (randomize rand s)).width ≤ 0.32 := by
      unfold neighbour
      by_cases hc : rand 10 % 2 ≠ 0
      · rw [if_pos hc, w1]
        rcases r1 with h | h | h | h <;> rw [h.1] <;> norm_num
      · rw [if_neg hc, w0]
        rcases r0 with h | h | h | h <;> rw [h.1] <;> norm_num
    rcases hw with h | h
    · exact Or.inl h
    · right
      have h2 : (((neighbour rand (randomize rand s)).width : ℚ) : ℝ) ≤ ((0.32 : ℚ) : ℝ) := by
        exact_mod_cast h
      push_cast at h2 ⊢
      linarith

/-- The layout `randomize` produces for the draws `drawsNearNeighbour`. -/
theorem drawsNearNeighbour_layout (s : State) :
    neighbour drawsNearNeighbour (randomize drawsNearNeighbour s) =
      (randomize drawsNearNeighbour s).mObstacles1 ∧
    (randomize drawsNearNeighbour s).mObstacles1.x = 1.62 ∧
    (randomize drawsNearNeighbour s).mObstacles1.y = 0.4927 ∧
    (randomize drawsNearNeighbour s).mObstacles1.width = 0.41 ∧
    (randomize drawsNearNeighbour s).mObstacles1.height = 0.23 ∧
    (randomize drawsNearNeighbour s).mTargetLocation.x = 2.505 ∧
    (randomize drawsNearNeighbour s).mTargetLocation.y = 0.38 := by
  refine ⟨?_, ?_, ?_, ?_, ?_, ?_, ?_⟩
  · simp [neighbour, drawsNearNeighbour]
  all_goals
    simp only [randomize, drawsNearNeighbour, targetQuadrant2, resize, place, quadrantBounds,
      quadrantBoundsTable, List.getD_cons_zero, List.getD_cons_succ, TARGET_DIAMETER,
      min_eq, max_eq]
    norm_num

/-- Claim C11 fails at the draws `drawsNearNeighbour`: obstacle 1 has width `0.41` and
centre `(1.825, 0.3777)`, the target lies at `(2.505, 0.38)`, and their distance is below
`0.5 + 0.41 / 2 = 0.705`. -/
theorem target_inside_exclusion_disk :
    distance ((randomize drawsNearNeighbour blank).mTargetLocation.x,
        (randomize drawsNearNeighbour blank).mTargetLocation.y)
      (obstacleCentre (neighbour drawsNearNeighbour (randomize drawsNearNeighbour blank))) <
    ((0.5 + (neighbour drawsNearNeighbour (randomize drawsNearNeighbour blank)).width / 2 : ℚ) : ℝ)
    := by
  obtain ⟨hn, hx, hy, hw, hh, tx, ty⟩ := drawsNearNeighbour_layout blank
  rw [hn]
  unfold distance distSq obstacleCentre
  rw [hx, hy, hw, hh, tx, ty]
  rw [Real.sqrt_lt' (by norm_num)]
  norm_num

/-- `resize` gives the major size to the obstacle whose index is `largeObstacleQuadrant`
and the minor size to the others. -/
theorem resize_major_minor (L i r : ℕ) (o : Obstacle) :
    (i = L → isMajor (resize L i r o)) ∧ (i ≠ L → isMinor (resize L i r o)) := by
  unfold resize isMajor isMinor
  constructor
  · intro h
    by_cases h2 : r % 2 ≠ 0 <;> simp [h, h2]
  · intro h
    by_cases h2 : r % 2 ≠ 0 <;> simp [h, h2]

/-- Size class only depends on width and height. -/
theorem isMajor_congr (a b : Obstacle) (hw : a.width = b.width) (hh : a.height = b.height)
    (h : isMajor b) : isMajor a := by
  unfold isMajor at h ⊢; rw [hw, hh]; exact h

theorem isMinor_congr (a b : Obstacle) (hw : a.width = b.width) (hh : a.height = b.height)
    (h : isMinor b) : isMinor a := by
  unfold isMinor at h ⊢; rw [hw, hh]; exact h

/-- Claim C12. For every sequence of draws, after `randomize` exactly one of the three
obstacles has the major size `{0.41, 0.23}` and each of the other two has the minor size
`{0.32, 0.13}`, in either orientation; no obstacle has both sizes. -/
theorem exactly_one_major (rand : ℕ → ℕ) (s : State) (o : Obstacle) :
    ((isMajor (randomize rand s).mObstacles0 ∧ isMinor (randomize rand s).mObstacles1 ∧
        isMinor (randomize rand s).mObstacles2) ∨
      (isMinor (randomize rand s).mObstacles0 ∧ isMajor (randomize rand s).mObstacles1 ∧
        isMinor (randomize rand s).mObstacles2) ∨
      (isMinor (randomize rand s).mObstacles0 ∧ isMinor (randomize rand s).mObstacles1 ∧
        isMajor (randomize rand s).mObstacles2)) ∧
    ¬ (isMajor o ∧ isMinor o) := by
  obtain ⟨w0, h0, w1, h1, w2, h2⟩ := randomize_sizes rand s
  have m0 := resize_major_minor (rand 2 % 3) 0 (rand 3) s.mObstacles0
  have m1 := resize_major_minor (rand 2 % 3) 1 (rand 4) s.mObstacles1
  have m2 := resize_major_minor (rand 2 % 3) 2 (rand 5) s.mObstacles2
  have hL : rand 2 % 3 < 3 := Nat.mod_lt _ (by norm_num)
  constructor
  · have hcases : rand 2 % 3 = 0 ∨ rand 2 % 3 = 1 ∨ rand 2 % 3 = 2 := by omega
    rcases hcases with h | h | h
    · left
      exact ⟨isMajor_congr _ _ w0 h0 (m0.1 h.symm),
        isMinor_congr _ _ w1 h1 (m1.2 (by omega)),
        isMinor_congr _ _ w2 h2 (m2.2 (by omega))⟩
    · right; left
      exact ⟨isMinor_congr _ _ w0 h0 (m0.2 (by omega)),
        isMajor_congr _ _ w1 h1 (m1.1 h.symm),
        isMinor_congr _ _ w2 h2 (m2.2 (by omega))⟩
    · right; right
      exact ⟨isMinor_congr _ _ w0 h0 (m0.2 (by omega)),
        isMinor_congr _ _ w1 h1 (m1.2 (by omega)),
        isMajor_congr _ _ w2 h2 (m2.1 h.symm)⟩
  · unfold isMajor isMinor
    rintro ⟨(⟨a, -⟩ | ⟨a, -⟩), (⟨b, -⟩ | ⟨b, -⟩)⟩ <;> rw [a] at b <;> norm_num at b

/-- A percentage step of a positive span stays strictly below the span's end. -/
theorem step_lt (r : ℕ) (d m : ℚ) (hd : 0 < d) :
    ((r % 100 : ℕ) : ℚ) * d / 100.0 + m < d + m := by
  have h1 : ((r % 100 : ℕ) : ℚ) ≤ 99 := by
    have : r % 100 ≤ 99 := Nat.le_of_lt_succ (Nat.mod_lt r (by norm_num))
    exact_mod_cast this
  have h2 : ((r % 100 : ℕ) : ℚ) * d ≤ 99 * d := mul_le_mul_of_nonneg_right h1 hd.le
  norm_num
  linarith

/-- Obstacle 1 ends strictly below the line `y = 1.0` on which obstacle 0 starts. -/
theorem obstacle1_below_obstacle0 (rand : ℕ → ℕ) (s : State) :
    (randomize rand s).mObstacles1.y < 1.0 ∧
    1.0 ≤ (randomize rand s).mObstacles0.y - (randomize rand s).mObstacles0.height := by
  obtain ⟨⟨-, -, a3, -⟩, -⟩ := randomize_obstacles01 rand s
  refine ⟨?_, a3⟩
  have r1 := resize_range (rand 2 % 3) 1 (rand 4) s.mObstacles1
  have e : (randomize rand s).mObstacles1.y =
      (place 1 (rand 8) (rand 9) (resize (rand 2 % 3) 1 (rand 4) s.mObstacles1)).y := rfl
  rw [e, place_y]
  have h := step_lt (rand 9)
    (quadrantBounds 1 3 - quadrantBounds 1 2 -
      (resize (rand 2 % 3) 1 (rand 4) s.mObstacles1).height)
    (quadrantBounds 1 2)
  simp only [quadrantBounds, quadrantBoundsTable, List.getD_cons_zero, List.getD_cons_succ]
    at h ⊢
  have h2 := h (by linarith [r1.2.2])
  linarith

/-- Claim C16 fails: there are no draws for which the rectangles of obstacle 0 and
obstacle 1 intersect after `randomize`. -/
theorem obstacles01_never_intersect :
    ¬ ∃ (rand : ℕ → ℕ) (s : State),
      rectsIntersect (randomize rand s).mObstacles0 (randomize rand s).mObstacles1 := by
  rintro ⟨rand, s, -, -, h3, -⟩
  obtain ⟨h1, h0⟩ := obstacle1_below_obstacle0 rand s
  linarith

/-- Claim C16, as amended. For every sequence of draws, after `randomize` the rectangles
of obstacle 0 and obstacle 1 do not intersect: obstacle 1 ends strictly below `y = 1.0`
and obstacle 0 starts at or above it. -/
theorem obstacles01_disjoint (rand : ℕ → ℕ) (s : State) :
    (randomize rand s).mObstacles1.y < 1.0 ∧
    1.0 ≤ (randomize rand s).mObstacles0.y - (randomize rand s).mObstacles0.height ∧
    ¬ rectsIntersect (randomize rand s).mObstacles0 (randomize rand s).mObstacles1 := by
  obtain ⟨h1, h0⟩ := obstacle1_below_obstacle0 rand s
  refine ⟨h1, h0, ?_⟩
  rintro ⟨-, -, h3, -⟩
  linarith

/-- Claim C17. For every pair of draws, after `randomize` the starting location has
`x = 0.35`, `y = 0.4 + k * 0.3` for `k = draw mod 5`, one of `0.4, 0.7, 1.0, 1.3, 1.6`, and
heading `(draw mod 4) * PI / 2 - PI`, one of `-PI, -PI / 2, 0, PI / 2`; each of the 5 lanes
and each of the 4 headings is produced by some draw. -/
theorem start_pose (rand : ℕ → ℕ) (s : State) :
    (randomize rand s).mStartingLocation.x = 0.35 ∧
    (randomize rand s).mStartingLocation.y = lane (rand 0 % 5) ∧
    ((randomize rand s).mStartingLocation.y = 0.4 ∨
      (randomize rand s).mStartingLocation.y = 0.7 ∨
      (randomize rand s).mStartingLocation.y = 1.0 ∨
      (randomize rand s).mStartingLocation.y = 1.3 ∨
      (randomize rand s).mStartingLocation.y = 1.6) ∧
    (randomize rand s).mStartingLocation.theta = heading (rand 1 % 4) ∧
    ((randomize rand s).mStartingLocation.theta = -PI ∨
      (randomize rand s).mStartingLocation.theta = -PI / 2 ∨
      (randomize rand s).mStartingLocation.theta = 0 ∨
      (randomize rand s).mStartingLocation.theta = PI / 2) ∧
    (∀ k : Fin 5, ∃ r : ℕ → ℕ, (randomize r s).mStartingLocation.y = lane k) ∧
    (∀ k : Fin 4, ∃ r : ℕ → ℕ, (randomize r s).mStartingLocation.theta = heading k) := by
  have ey : (randomize rand s).mStartingLocation.y = 0.4 + ((rand 0 % 5 : ℕ) : ℚ) * 0.3 := rfl
  have et : (randomize rand s).mStartingLocation.theta =
      ((rand 1 % 4 : ℕ) : ℚ) * PI / 2 - PI := rfl
  refine ⟨rfl, rfl, ?_, rfl, ?_, ?_, ?_⟩
  · rw [ey]
    have h : rand 0 % 5 < 5 := Nat.mod_lt _ (by norm_num)
    have hc : rand 0 % 5 = 0 ∨ rand 0 % 5 = 1 ∨ rand 0 % 5 = 2 ∨ rand 0 % 5 = 3 ∨
        rand 0 % 5 = 4 := by omega
    rcases hc with h | h | h | h | h <;> rw [h] <;> norm_num
  · rw [et]
    have h : rand 1 % 4 < 4 := Nat.mod_lt _ (by norm_num)
    have hc : rand 1 % 4 = 0 ∨ rand 1 % 4 = 1 ∨ rand 1 % 4 = 2 ∨ rand 1 % 4 = 3 := by omega
    rcases hc with h | h | h | h <;> rw [h]
    · left; norm_num
    · right; left; push_cast; ring
    · right; right; left; push_cast; ring
    · right; right; right; push_cast; ring
  · intro k
    refine ⟨fun _ => k.val, ?_⟩
    have e : (randomize (fun _ => k.val) s).mStartingLocation.y =
        0.4 + ((k.val % 5 : ℕ) : ℚ) * 0.3 := rfl
    rw [e, Nat.mod_eq_of_lt k.isLt]
    rfl
  · intro k
    refine ⟨fun _ => k.val, ?_⟩
    have e : (randomize (fun _ => k.val) s).mStartingLocation.theta =
        ((k.val % 4 : ℕ) : ℚ) * PI / 2 - PI := rfl
    rw [e, Nat.mod_eq_of_lt k.isLt]
    rfl

/-- Claim C18. For every sequence of draws, after `randomize` the target disk of radius
`0.09` is disjoint from each of the three obstacle rectangles: for each obstacle the
projections of disk and rectangle are separated along the x axis or along the y axis. -/
theorem target_clear_of_obstacles (rand : ℕ → ℕ) (s : State) :
    diskClearOf (randomize rand s).mTargetLocation 0.09 (randomize rand s).mObstacles0 ∧
    diskClearOf (randomize rand s).mTargetLocation 0.09 (randomize rand s).mObstacles1 ∧
    diskClearOf (randomize rand s).mTargetLocation 0.09 (randomize rand s).mObstacles2 := by
  obtain ⟨⟨-, a2, -, -⟩, ⟨-, b2, -, -⟩⟩ := randomize_obstacles01 rand s
  obtain ⟨⟨c1, -⟩, -, -, -, h⟩ := randomize_target_obstacle2 rand s
  obtain ⟨-, -, -, -, -, h2⟩ := randomize_sizes rand s
  have r2 := resize_range (rand 2 % 3) 2 (rand 5) s.mObstacles2
  rw [← h2] at r2
  refine ⟨Or.inl (by linarith), Or.inl (by linarith), ?_⟩
  by_cases hc : rand 10 % 2 ≠ 0
  · rw [if_pos hc] at h
    exact Or.inr (Or.inr (Or.inr (by linarith [h.2.2, r2.2.2])))
  · rw [if_neg hc] at h
    exact Or.inr (Or.inr (Or.inl (by linarith [h.2.2])))

/-! ## The coordinate transform: branches, ranges and consistency -/

/-- Both branches of the centre shift are `markerSide / 2` times
`(cos theta + sin theta, sin theta - cos theta)`. -/
theorem centreShift_closed (theta markerSide : ℝ) :
    centreShiftFirst theta markerSide =
      (markerSide / 2 * (Real.cos theta + Real.sin theta),
        markerSide / 2 * (Real.sin theta - Real.cos theta)) ∧
    centreShiftSecond theta markerSide =
      (markerSide / 2 * (Real.cos theta + Real.sin theta),
        markerSide / 2 * (Real.sin theta - Real.cos theta)) := by
  have e1 := shift_cos_first theta
  have e2 := shift_sin_first theta
  have e3 := shift_sin_second theta
  have e4 := shift_cos_second theta
  unfold centreShiftFirst centreShiftSecond
  constructor
  · refine Prod.ext ?_ ?_
    · simp only; linear_combination (markerSide / 2) * e1
    · simp only; linear_combination (-markerSide / 2) * e2
  · refine Prod.ext ?_ ?_
    · simp only; linear_combination (-markerSide / 2) * e3
    · simp only; linear_combination (markerSide / 2) * e4

/-- Claim C13. For every marker angle and side length the two centre-correction branches
of `translate` add the same amounts to `A` and `B`, in particular at the branch boundary
`theta = π / 2` and `theta = -π / 2`; so whichever branch the sign of `cos theta` selects,
the position `translate` returns is the one given by the first branch's formula. -/
theorem centre_shift_branches_agree (theta markerSide : ℝ) (s : State) (m : Detection) :
    centreShiftFirst theta markerSide = centreShiftSecond theta markerSide ∧
    centreShiftFirst (Real.pi / 2) markerSide = centreShiftSecond (Real.pi / 2) markerSide ∧
    centreShiftFirst (-(Real.pi / 2)) markerSide =
      centreShiftSecond (-(Real.pi / 2)) markerSide ∧
    (translate s m).x =
      ((m.c0.x - s.mOriginPx.1) * Real.cos s.mTheta + (s.mOriginPx.2 - m.c0.y) * Real.sin s.mTheta
        + (centreShiftFirst (translate s m).theta
            (Real.sqrt ((m.c1.x - m.c0.x) * (m.c1.x - m.c0.x)
              + (m.c1.y - m.c0.y) * (m.c1.y - m.c0.y)))).1) / s.mPpm ∧
    (translate s m).y =
      ((s.mOriginPx.2 - m.c0.y) * Real.cos s.mTheta - (m.c0.x - s.mOriginPx.1) * Real.sin s.mTheta
        + (centreShiftFirst (translate s m).theta
            (Real.sqrt ((m.c1.x - m.c0.x) * (m.c1.x - m.c0.x)
              + (m.c1.y - m.c0.y) * (m.c1.y - m.c0.y)))).2) / s.mPpm := by
  have h : ∀ t S : ℝ, centreShiftFirst t S = centreShiftSecond t S := fun t S =>
    (centreShift_closed t S).1.trans (centreShift_closed t S).2.symm
  refine ⟨h _ _, h _ _, h _ _, ?_, ?_⟩
  · have e : (translate s m).theta =
        s.mTheta - atan2 (m.c1.y - m.c0.y) (m.c1.x - m.c0.x) := rfl
    rw [e]
    simp only [translate]
    congr 1
    split_ifs
    · simp only [centreShiftFirst]
    · rw [h]; simp only [centreShiftSecond]; ring
  · have e : (translate s m).theta =
        s.mTheta - atan2 (m.c1.y - m.c0.y) (m.c1.x - m.c0.x) := rfl
    rw [e]
    simp only [translate]
    congr 1
    split_ifs
    · simp only [centreShiftFirst]; ring
    · rw [h]; simp only [centreShiftSecond]

/-- `atan2` is `π` exactly on the negative x axis. -/
theorem atan2_eq_pi_iff (y x : ℝ) : atan2 y x = Real.pi ↔ x < 0 ∧ y = 0 := by
  unfold atan2
  exact Complex.arg_eq_pi_iff

/-- The calibration left by `leftFrame` on a freshly constructed arena. -/
theorem leftFrame_calibration (u : State) :
    (processMarkers (Arena u) leftFrame).mOriginPx = (500, 500) ∧
    (processMarkers (Arena u) leftFrame).mXAxisPx = (400, 500) ∧
    (processMarkers (Arena u) leftFrame).mTheta = -Real.pi := by
  obtain ⟨g1, g2, -, -⟩ := processMarkers_fields (Arena u) leftFrame
  obtain ⟨-, e2⟩ := processMarkers_derived (Arena u) leftFrame
  have o : referencePx 0 leftFrame (Arena u).mOriginPx = (500, 500) := by
    rw [referencePx_absent 0 leftFrame _ (by simp [leftFrame])]; rfl
  have a : referencePx 1 leftFrame (Arena u).mXAxisPx = (400, 500) := by
    simp [referencePx, lastCorner, leftFrame, toInt]
  rw [o] at g1; rw [a] at g2
  refine ⟨g1, g2, ?_⟩
  rw [e2, g1, g2]
  norm_num
  exact (atan2_eq_pi_iff 0 (-100)).2 ⟨by norm_num, rfl⟩

/-- Claim C14 fails when the axis marker is seen directly to the left of the origin
marker: on a fresh arena the frame `leftFrame` leaves `mTheta = -π`, which is not in
`(-π, π]`. -/
theorem theta_reaches_minus_pi :
    ¬ (-Real.pi < (processMarkers (Arena blank) leftFrame).mTheta ∧
      (processMarkers (Arena blank) leftFrame).mTheta ≤ Real.pi) := by
  obtain ⟨-, -, h⟩ := leftFrame_calibration blank
  rw [h]
  intro hc
  exact lt_irrefl _ hc.1

/-- Claim C14, as amended. For every prior state and detection list the `mTheta` that
`processMarkers` stores satisfies `-π ≤ mTheta < π`, and `mTheta = -π` exactly when the axis
pixel lies directly to the left of the origin pixel (`dy = 0` and `dx < 0`). -/
theorem theta_range (s : State) (markers : List Detection) :
    -Real.pi ≤ (processMarkers s markers).mTheta ∧
    (processMarkers s markers).mTheta < Real.pi ∧
    ((processMarkers s markers).mTheta = -Real.pi ↔
      ((processMarkers s markers).mXAxisPx.1 < (processMarkers s markers).mOriginPx.1 ∧
        (processMarkers s markers).mXAxisPx.2 = (processMarkers s markers).mOriginPx.2)) := by
  obtain ⟨-, e2⟩ := processMarkers_derived s markers
  rw [e2]
  have h1 := Complex.arg_le_pi
    ⟨(((processMarkers s markers).mXAxisPx.1 - (processMarkers s markers).mOriginPx.1 : ℤ) : ℝ),
     (((processMarkers s markers).mXAxisPx.2 - (processMarkers s markers).mOriginPx.2 : ℤ) : ℝ)⟩
  have h2 := Complex.neg_pi_lt_arg
    ⟨(((processMarkers s markers).mXAxisPx.1 - (processMarkers s markers).mOriginPx.1 : ℤ) : ℝ),
     (((processMarkers s markers).mXAxisPx.2 - (processMarkers s markers).mOriginPx.2 : ℤ) : ℝ)⟩
  refine ⟨?_, ?_, ?_⟩
  · unfold atan2; linarith
  · unfold atan2; linarith
  · rw [neg_inj, atan2_eq_pi_iff]
    constructor
    · rintro ⟨a, b⟩
      have a' : (processMarkers s markers).mXAxisPx.1 - (processMarkers s markers).mOriginPx.1 < 0 := by
        exact_mod_cast a
      have b' : (processMarkers s markers).mXAxisPx.2 - (processMarkers s markers).mOriginPx.2 = 0 := by
        exact_mod_cast b
      exact ⟨by omega, by omega⟩
    · rintro ⟨a, b⟩
      refine ⟨?_, ?_⟩
      · have : (processMarkers s markers).mXAxisPx.1 - (processMarkers s markers).mOriginPx.1 < 0 := by
          omega
        exact_mod_cast this
      · have : (processMarkers s markers).mXAxisPx.2 - (processMarkers s markers).mOriginPx.2 = 0 := by
          omega
        exact_mod_cast this

/-- The length of an integer pixel vector is zero exactly for the zero vector. -/
theorem sqrt_sq_add_sq_pos_iff (dx dy : ℤ) :
    0 < Real.sqrt ((dx : ℝ) ^ 2 + (dy : ℝ) ^ 2) ↔ ¬ (dx = 0 ∧ dy = 0) := by
  rw [Real.sqrt_pos]
  constructor
  · rintro h ⟨rfl, rfl⟩
    simp at h
  · intro h
    by_cases hx : dx = 0
    · have hy : dy ≠ 0 := fun e => h ⟨hx, e⟩
      have : (0 : ℝ) < (dy : ℝ) ^ 2 := by positivity
      nlinarith [sq_nonneg (dx : ℝ)]
    · have : (0 : ℝ) < (dx : ℝ) ^ 2 := by positivity
      nlinarith [sq_nonneg (dy : ℝ)]

/-- The calibration left by `coincidentFrame` on a freshly constructed arena. -/
theorem coincidentFrame_calibration (u : State) :
    (processMarkers (Arena u) coincidentFrame).mOriginPx = (500, 500) ∧
    (processMarkers (Arena u) coincidentFrame).mXAxisPx = (500, 500) ∧
    (processMarkers (Arena u) coincidentFrame).mPpm = 0 := by
  obtain ⟨g1, g2, -, -⟩ := processMarkers_fields (Arena u) coincidentFrame
  obtain ⟨e1, -⟩ := processMarkers_derived (Arena u) coincidentFrame
  have o : referencePx 0 coincidentFrame (Arena u).mOriginPx = (500, 500) := by
    rw [referencePx_absent 0 coincidentFrame _ (by simp [coincidentFrame])]; rfl
  have a : referencePx 1 coincidentFrame (Arena u).mXAxisPx = (500, 500) := by
    simp [referencePx, lastCorner, coincidentFrame, toInt]
  rw [o] at g1; rw [a] at g2
  refine ⟨g1, g2, ?_⟩
  rw [e1, g1, g2]
  norm_num

/-- Claim C15 fails when a reference marker is seen at the other reference pixel: on a
fresh arena (width `4`) the frame `coincidentFrame` holds reference marker 1 at the
origin pixel `(500, 500)`, and the stored `mPpm` is `0`. -/
theorem ppm_zero_on_coincident_reference :
    (0 : ℝ) < (Arena blank).mWidthM ∧
    (∃ m ∈ coincidentFrame, m.id = 0 ∨ m.id = 1) ∧
    ¬ (0 < (processMarkers (Arena blank) coincidentFrame).mPpm) := by
  obtain ⟨-, -, h⟩ := coincidentFrame_calibration blank
  refine ⟨?_, ⟨_, List.mem_singleton_self _, Or.inr rfl⟩, ?_⟩
  · show (0 : ℝ) < 4
    norm_num
  · rw [h]
    exact lt_irrefl _

/-- Claim C15, as amended. From every state with a positive width, after every
`processMarkers` call the stored `mPpm` is non-negative, and it is strictly positive
exactly when the resulting origin and axis pixels differ. -/
theorem ppm_positive_iff (s : State) (markers : List Detection) (hw : 0 < s.mWidthM) :
    0 ≤ (processMarkers s markers).mPpm ∧
    (0 < (processMarkers s markers).mPpm ↔
      (processMarkers s markers).mOriginPx ≠ (processMarkers s markers).mXAxisPx) := by
  obtain ⟨-, -, f3, -⟩ := processMarkers_fields s markers
  obtain ⟨e1, -⟩ := processMarkers_derived s markers
  rw [f3] at e1
  rw [e1]
  constructor
  · exact div_nonneg (Real.sqrt_nonneg _) hw.le
  · rw [div_pos_iff_of_pos_right hw, sqrt_sq_add_sq_pos_iff]
    constructor
    · intro h e
      apply h
      rw [e]; simp
    · rintro h ⟨a, b⟩
      apply h
      exact Prod.ext (by omega) (by omega)

/-- Witness of `ppm_positive_iff`: a fresh arena and the tilted frame. -/
theorem ppm_positive_iff_witness :
    (0 : ℝ) < (Arena blank).mWidthM ∧
    0 ≤ (processMarkers (Arena blank) tiltedFrame).mPpm ∧
    (0 < (processMarkers (Arena blank) tiltedFrame).mPpm ↔
      (processMarkers (Arena blank) tiltedFrame).mOriginPx ≠
        (processMarkers (Arena blank) tiltedFrame).mXAxisPx) :=
  ⟨by show (0 : ℝ) < 4; norm_num,
    ppm_positive_iff (Arena blank) tiltedFrame (by show (0 : ℝ) < 4; norm_num)⟩

/-- Claim C19. For every state left by `processMarkers` with a positive width, in exact
real arithmetic `cameraCoordinate (0, 0)` is the origin pixel and
`cameraCoordinate (mWidthM, 0)` is the axis pixel: the arena origin maps to reference
marker 0 and the point one arena width along the x axis maps to reference marker 1. The
pixel meant is the real point computed before the conversion to `int`. The case of equal
origin and axis pixels is included. -/
theorem calibration_matches_cameraCoordinate (s : State) (markers : List Detection)
    (hw : 0 < (processMarkers s markers).mWidthM) :
    cameraCoordinateF (processMarkers s markers) 0 0 =
      (((processMarkers s markers).mOriginPx.1 : ℝ), ((processMarkers s markers).mOriginPx.2 : ℝ)) ∧
    cameraCoordinateF (processMarkers s markers) (processMarkers s markers).mWidthM 0 =
      (((processMarkers s markers).mXAxisPx.1 : ℝ), ((processMarkers s markers).mXAxisPx.2 : ℝ)) := by
  obtain ⟨e1, e2⟩ := processMarkers_derived s markers
  have hc := side_mul_cos_atan2
    (((processMarkers s markers).mXAxisPx.1 - (processMarkers s markers).mOriginPx.1 : ℤ) : ℝ)
    (((processMarkers s markers).mXAxisPx.2 - (processMarkers s markers).mOriginPx.2 : ℤ) : ℝ)
  have hs := side_mul_sin_atan2
    (((processMarkers s markers).mXAxisPx.1 - (processMarkers s markers).mOriginPx.1 : ℤ) : ℝ)
    (((processMarkers s markers).mXAxisPx.2 - (processMarkers s markers).mOriginPx.2 : ℤ) : ℝ)
  rw [← sq, ← sq] at hc hs
  have hW : (processMarkers s markers).mWidthM * (processMarkers s markers).mPpm =
      Real.sqrt
        ((((processMarkers s markers).mXAxisPx.1 - (processMarkers s markers).mOriginPx.1 : ℤ) : ℝ) ^ 2
        + (((processMarkers s markers).mXAxisPx.2 - (processMarkers s markers).mOriginPx.2 : ℤ) : ℝ) ^ 2) := by
    rw [e1]
    field_simp
  refine ⟨?_, ?_⟩
  · simp [cameraCoordinateF]
  · simp only [cameraCoordinateF, zero_mul, sub_zero, add_zero]
    rw [hW, e2, Real.cos_neg, Real.sin_neg, hc, mul_neg, hs]
    refine Prod.ext ?_ ?_
    · simp only; push_cast; ring
    · simp only; push_cast; ring

/-- Witness of `calibration_matches_cameraCoordinate`: a fresh arena and the tilted
frame. -/
theorem calibration_matches_cameraCoordinate_witness :
    (0 : ℝ) < (processMarkers (Arena blank) tiltedFrame).mWidthM ∧
    cameraCoordinateF (processMarkers (Arena blank) tiltedFrame) 0 0 =
      (((processMarkers (Arena blank) tiltedFrame).mOriginPx.1 : ℝ),
        ((processMarkers (Arena blank) tiltedFrame).mOriginPx.2 : ℝ)) ∧
    cameraCoordinateF (processMarkers (Arena blank) tiltedFrame)
        (processMarkers (Arena blank) tiltedFrame).mWidthM 0 =
      (((processMarkers (Arena blank) tiltedFrame).mXAxisPx.1 : ℝ),
        ((processMarkers (Arena blank) tiltedFrame).mXAxisPx.2 : ℝ)) :=
  ⟨by rw [(processMarkers_fields (Arena blank) tiltedFrame).2.2.1]; show (0 : ℝ) < 4; norm_num,
    calibration_matches_cameraCoordinate (Arena blank) tiltedFrame
      (by rw [(processMarkers_fields (Arena blank) tiltedFrame).2.2.1]
          show (0 : ℝ) < 4; norm_num)⟩

/-- `atan2` does not change when the point is scaled by a positive factor. -/
theorem atan2_scale (k y x : ℝ) (hk : 0 < k) : atan2 (k * y) (k * x) = atan2 y x := by
  unfold atan2
  have e : (⟨k * x, k * y⟩ : ℂ) = (k : ℂ) * ⟨x, y⟩ := by
    apply Complex.ext <;> simp
  rw [e]
  exact Complex.arg_real_mul _ hk

/-- The heading `translate` reports for a marker that points along the arena x axis, that
is whose heading vector is a positive multiple `k` of `mXAxisPx - mOriginPx`: twice the
calibration angle. -/
theorem translate_theta_along_axis (s : State) (markers : List Detection) (m : Detection)
    (k : ℝ) (hk : 0 < k)
    (hx : m.c1.x - m.c0.x = k * (((processMarkers s markers).mXAxisPx.1
      - (processMarkers s markers).mOriginPx.1 : ℤ) : ℝ))
    (hy : m.c1.y - m.c0.y = k * (((processMarkers s markers).mXAxisPx.2
      - (processMarkers s markers).mOriginPx.2 : ℤ) : ℝ)) :
    (translate (processMarkers s markers) m).theta = 2 * (processMarkers s markers).mTheta := by
  obtain ⟨-, e2⟩ := processMarkers_derived s markers
  have e : (translate (processMarkers s markers) m).theta =
      (processMarkers s markers).mTheta - atan2 (m.c1.y - m.c0.y) (m.c1.x - m.c0.x) := rfl
  rw [e, hx, hy, atan2_scale _ _ _ hk]
  have e3 : atan2
      (((processMarkers s markers).mXAxisPx.2 - (processMarkers s markers).mOriginPx.2 : ℤ) : ℝ)
      (((processMarkers s markers).mXAxisPx.1 - (processMarkers s markers).mOriginPx.1 : ℤ) : ℝ)
      = -(processMarkers s markers).mTheta := by
    rw [e2, neg_neg]
  rw [e3]
  ring

/-- Claim C20 at a tilted calibration. After `tiltedFrame` (`mTheta = -π / 2`) the marker
`axisMarker`, whose heading vector `(0, 20)` is `1 / 20` of `mXAxisPx - mOriginPx` and so
points along the arena x axis, is given `theta = -π` by `translate`, which is not `0`
modulo `2 π`. -/
theorem heading_along_tilted_axis (u : State) :
    (axisMarker.c1.x - axisMarker.c0.x =
        (1 / 20) * (((processMarkers (Arena u) tiltedFrame).mXAxisPx.1
          - (processMarkers (Arena u) tiltedFrame).mOriginPx.1 : ℤ) : ℝ) ∧
      axisMarker.c1.y - axisMarker.c0.y =
        (1 / 20) * (((processMarkers (Arena u) tiltedFrame).mXAxisPx.2
          - (processMarkers (Arena u) tiltedFrame).mOriginPx.2 : ℤ) : ℝ)) ∧
    (translate (processMarkers (Arena u) tiltedFrame) axisMarker).theta = -Real.pi ∧
    ∀ n : ℤ, (translate (processMarkers (Arena u) tiltedFrame) axisMarker).theta
      ≠ 0 + 2 * Real.pi * n := by
  obtain ⟨g1, g2, -, -⟩ := processMarkers_fields (Arena u) tiltedFrame
  have o : referencePx 0 tiltedFrame (Arena u).mOriginPx = (100, 100) := by
    simp [referencePx, lastCorner, tiltedFrame, toInt]
  have a : referencePx 1 tiltedFrame (Arena u).mXAxisPx = (100, 500) := by
    simp [referencePx, lastCorner, tiltedFrame, toInt]
  rw [o] at g1; rw [a] at g2
  obtain ⟨-, -, ht⟩ := tiltedFrame_calibration u
  have hx : axisMarker.c1.x - axisMarker.c0.x =
        (1 / 20) * (((processMarkers (Arena u) tiltedFrame).mXAxisPx.1
          - (processMarkers (Arena u) tiltedFrame).mOriginPx.1 : ℤ) : ℝ) := by
    rw [g1, g2]; simp [axisMarker]
  have hy : axisMarker.c1.y - axisMarker.c0.y =
        (1 / 20) * (((processMarkers (Arena u) tiltedFrame).mXAxisPx.2
          - (processMarkers (Arena u) tiltedFrame).mOriginPx.2 : ℤ) : ℝ) := by
    rw [g1, g2]; simp [axisMarker]; norm_num
  have hth := translate_theta_along_axis (Arena u) tiltedFrame axisMarker (1 / 20)
    (by norm_num) hx hy
  rw [ht] at hth
  have hth2 : (translate (processMarkers (Arena u) tiltedFrame) axisMarker).theta = -Real.pi := by
    rw [hth]; ring
  refine ⟨⟨hx, hy⟩, hth2, ?_⟩
  intro n hn
  rw [hth2] at hn
  have hpi := Real.pi_pos
  have h2 : (2 * (n : ℝ) + 1) * Real.pi = 0 := by linarith
  rcases mul_eq_zero.1 h2 with h3 | h3
  · have h4 : (2 * n + 1 : ℤ) = 0 := by exact_mod_cast h3
    omega
  · exact hpi.ne' h3

end Arena
